import Mathlib

/-!
Verification of the Plus surgical-navigation core: a shallow embedding of the
routines of vtkPlusNDITracker.cxx (stray-marker matcher, tool status
classification, tool-port enabling, LED/beep guards) and of
vtkPlusOpenIGTLinkServer.cxx (frame-count computation, command deduplication,
keep-alive, tracked-frame sending), together with theorems checking the
natural-language specification of the program against this embedding.

Modelling conventions:
* C++ double is modelled as the rationals.  The stray matcher compares
  distances obtained by sqrt of a sum of squares; since sqrt is strictly
  monotone on the nonnegative reals, every comparison the algorithm performs
  (strict less-than between two distances, equality with the sentinel
  maxDistance) is unchanged when each distance is replaced by its square, so
  the embedding stores squared distances, and the sentinel DBL_MAX becomes an
  explicit maxDistance parameter (exactly as in the source, which passes
  maxDistance into GetDistanceStrays and MatchStrays).
* C++ int is modelled as the integers; the sentinel INT_MAX becomes the
  noMatchFlag parameter (again following the source signatures).
* Fallible operations return a PlusStatus, mirroring PLUS_SUCCESS / PLUS_FAIL.
* Device and socket I/O is replaced by explicit inputs (port-status words,
  per-client send results) and explicit outputs (lists of issued commands or
  sent messages).
-/

namespace PlusLib

/-- Return status used throughout Plus (PlusStatus in PlusCommon.h). -/
inductive PlusStatus where
  | PLUS_SUCCESS
  | PLUS_FAIL
deriving DecidableEq

export PlusStatus (PLUS_SUCCESS PLUS_FAIL)

/-- Tool status flags used by the tracker driver (subset relevant to the
classification in vtkPlusNDITracker::InternalUpdate). -/
inductive ToolStatus where
  | TOOL_OK
  | TOOL_MISSING
  | TOOL_OUT_OF_VIEW
  | TOOL_OUT_OF_VOLUME
deriving DecidableEq

export ToolStatus (TOOL_OK TOOL_MISSING TOOL_OUT_OF_VIEW TOOL_OUT_OF_VOLUME)

instance : Inhabited ToolStatus := ⟨TOOL_MISSING⟩

/-! ## Port-status bits (vendor header ndicapi.h, external to the repository)

Only the bit positions matter for the embedded code; these are the vendor
values.  NDI_TOOL_IN_PORT, NDI_INITIALIZED and NDI_ENABLED form the validity
mask used by InternalUpdate; NDI_OUT_OF_VOLUME is tested separately. -/

def NDI_TOOL_IN_PORT : ℕ := 0x01

def NDI_INITIALIZED : ℕ := 0x10

def NDI_ENABLED : ℕ := 0x20

def NDI_OUT_OF_VOLUME : ℕ := 0x40

/-- Status classification of a TOOL-type source in one polling tick
(vtkPlusNDITracker::InternalUpdate, lines 504-524).  The source initializes
toolFlags to TOOL_OK, overwrites it with TOOL_MISSING when the validity mask
is not fully present, and otherwise runs two successive (not chained)
if-statements: absent transform sets TOOL_OUT_OF_VIEW, then an
NDI_OUT_OF_VOLUME bit overwrites with TOOL_OUT_OF_VOLUME. -/
def classifyToolStatus (ndiToolAbsent : Bool) (ndiPortStatus : ℕ) : ToolStatus :=
  let ndiPortStatusValidFlags := NDI_TOOL_IN_PORT ||| NDI_INITIALIZED ||| NDI_ENABLED
  if ndiPortStatus &&& ndiPortStatusValidFlags ≠ ndiPortStatusValidFlags then
    TOOL_MISSING
  else
    let toolFlags := TOOL_OK
    let toolFlags := if ndiToolAbsent then TOOL_OUT_OF_VIEW else toolFlags
    let toolFlags := if ndiPortStatus &&& NDI_OUT_OF_VOLUME ≠ 0 then TOOL_OUT_OF_VOLUME
      else toolFlags
    toolFlags

/-! ## EnableToolPorts: identity-refresh phase (vtkPlusNDITracker.cxx 729-800)

Per tool descriptor the phase needs: whether GetTool succeeds, whether the
PHINF command reports an error, and the PHINF port-status word.  The inner
declaration "int status = ndiGetPHINFPortStatus(...)" shadows the function
level accumulator "PlusStatus status", so the assignment "status = PLUS_FAIL"
in the not-enabled branch hits the inner int and leaves the accumulator
untouched; the embedding reproduces this faithfully. -/

structure RefreshToolInput where
  getToolOk : Bool
  phinfError : Bool
  portStatusWord : ℕ
deriving DecidableEq

/-- Identity-refresh loop of EnableToolPorts.  Returns the function-level
accumulator and, per descriptor, the PortEnabled value written (none when the
descriptor was skipped by a continue branch). -/
def refreshToolIdentities (statusIn : PlusStatus) (tools : List RefreshToolInput) :
    PlusStatus × List (Option Bool) :=
  tools.foldl
    (fun acc t =>
      if ¬ t.getToolOk then (PLUS_FAIL, acc.2 ++ [none])
      else if t.phinfError then (PLUS_FAIL, acc.2 ++ [none])
      else
        -- int status := t.portStatusWord  (shadows the outer accumulator)
        let portEnabled := (t.portStatusWord &&& NDI_ENABLED) != 0
        -- if not portEnabled, the source writes PLUS_FAIL into the inner
        -- int status; the outer accumulator acc.1 is left unchanged
        (acc.1, acc.2 ++ [some portEnabled]))
    (statusIn, [])

/-- Tail of EnableToolPorts: identity refresh followed by the conditional
TSTART and the final return of the accumulator. -/
def EnableToolPortsFinalize (statusIn : PlusStatus) (tools : List RefreshToolInput)
    (isDeviceTracking tstartError : Bool) : PlusStatus × List (Option Bool) :=
  let r := refreshToolIdentities statusIn tools
  let statusOut := if isDeviceTracking && tstartError then PLUS_FAIL else r.1
  (statusOut, r.2)

/-! ## Beep and SetToolLED guards (vtkPlusNDITracker.cxx 850-926) -/

/-- LED states accepted by SetToolLED. -/
inductive LedState where
  | TR_LED_OFF
  | TR_LED_ON
  | TR_LED_FLASH
deriving DecidableEq

/-- Vendor LED mode characters (ndicapi.h). -/
def NDI_BLANK : Char := 'B'

def NDI_SOLID : Char := 'S'

def NDI_FLASH : Char := 'F'

/-- Commands issued to the device over the serial link, as far as the claims
need them. -/
inductive NdiSerialCommand where
  | led (portHandle : ℤ) (ledNumber : ℤ) (state : Char)
  | beepTimes (n : ℤ)
deriving DecidableEq

/-- Tool descriptor entry (NdiToolDescriptor), restricted to the fields the
guarded commands read. -/
structure NdiToolDescriptor where
  portEnabled : Bool
  portHandle : ℤ
  wiredPortNumber : ℤ
deriving DecidableEq

/-- vtkPlusNDITracker::Beep.  The guard rejects when Recording is TRUE (and
logs "not connected to the device"); n is clamped to 0..9 and a BEEP command
is issued. -/
def Beep (recording : Bool) (n : ℤ) : PlusStatus × Option NdiSerialCommand :=
  if recording then (PLUS_FAIL, none)
  else
    let n := if 9 < n then 9 else n
    let n := if n < 0 then 0 else n
    (PLUS_SUCCESS, some (NdiSerialCommand.beepTimes n))

/-- vtkPlusNDITracker::SetToolLED.  The guard rejects when Recording is FALSE
("not recording"); then the descriptor is looked up, its port handle checked,
the LED state mapped to the vendor character and the LED command issued. -/
def SetToolLED (recording : Bool) (descriptors : List (String × NdiToolDescriptor))
    (sourceId : String) (led : ℤ) (state : LedState) :
    PlusStatus × Option NdiSerialCommand :=
  if ¬ recording then (PLUS_FAIL, none)
  else
    match descriptors.find? (fun p => p.1 == sourceId) with
    | none => (PLUS_FAIL, none)
    | some p =>
      if p.2.portHandle ≤ 0 then (PLUS_FAIL, none)
      else
        let plstate :=
          match state with
          | LedState.TR_LED_OFF => NDI_BLANK
          | LedState.TR_LED_ON => NDI_SOLID
          | LedState.TR_LED_FLASH => NDI_FLASH
        (PLUS_SUCCESS, some (NdiSerialCommand.led p.2.portHandle (led + 1) plstate))

/-! ## STRAYMARKER index parsing and bounds (vtkPlusNDITracker.cxx 542-563)

The source reads characters 5 and 6 of the source id, subtracts the character
zero, forms a two-digit index, guards with strayMarkerIndex <=
MaxNumberOfStrays, and then indexes LastStraysPos and LastStraysStatus (both
of length MaxNumberOfStrays, see ReadConfiguration lines 1045-1050) at
strayMarkerIndex - 1. -/

/-- Two-digit stray index parsed from a source id, as in
strayMarkerParsedIndex / strayMarkerIndex. -/
def strayMarkerIndexOfId (toolSourceId : String) : ℤ :=
  let c5 := toolSourceId.data.getD 5 ' '
  let c6 := toolSourceId.data.getD 6 ' '
  ((c5.toNat : ℤ) - ('0'.toNat : ℤ)) * 10 + ((c6.toNat : ℤ) - ('0'.toNat : ℤ))

/-- The guard in the STRAYMARKER branch. -/
def strayMarkerGuard (strayMarkerIndex : ℤ) (maxNumberOfStrays : ℕ) : Prop :=
  strayMarkerIndex ≤ (maxNumberOfStrays : ℕ)

/-- The vector accesses LastStraysPos[i - 1] and LastStraysStatus[i - 1] are
in bounds for vectors of length MaxNumberOfStrays. -/
def strayAccessInBounds (strayMarkerIndex : ℤ) (maxNumberOfStrays : ℕ) : Prop :=
  0 ≤ strayMarkerIndex - 1 ∧ strayMarkerIndex - 1 < (maxNumberOfStrays : ℤ)

instance (i : ℤ) (m : ℕ) : Decidable (strayMarkerGuard i m) := by
  unfold strayMarkerGuard; infer_instance

instance (i : ℤ) (m : ℕ) : Decidable (strayAccessInBounds i m) := by
  unfold strayAccessInBounds; infer_instance

/-- A source id whose characters 5 and 6 are the digits 0 and 0, parsing to
stray index 0 (for example a StrayMarker data source configured with this
id). -/
def strayId00 : String := "Stray00ToTracker"

/-- A source id parsing to stray index 1. -/
def strayId01 : String := "Stray01ToTracker"

/-! ## Stray-marker matcher (vtkPlusNDITracker.cxx 441-466 and 1193-1334)

Positions are 3-D rational vectors.  Distance values are represented by their
squares (see the file header); the source's DBL_MAX sentinel is the explicit
maxDistance parameter and INT_MAX is the explicit noMatchFlag parameter,
mirroring the parameters of GetDistanceStrays / MatchStrays. -/

/-- A 3-D position. -/
def Pos3 : Type := ℚ × ℚ × ℚ

instance : DecidableEq Pos3 := by unfold Pos3; infer_instance

instance : Inhabited Pos3 := ⟨((0 : ℚ), (0 : ℚ), (0 : ℚ))⟩

/-- Squared euclidean distance, representing the source's
sqrt(pow(dx,2)+pow(dy,2)+pow(dz,2)). -/
def sqDist (p c : Pos3) : ℚ :=
  (p.1 - c.1) ^ 2 + (p.2.1 - c.2.1) ^ 2 + (p.2.2 - c.2.2) ^ 2

/-- vtkPlusNDITracker::GetDistanceStrays.  Row j (one per slot of
LastStraysPos, whose length is MaxNumberOfStrays) holds one pair per current
observation: the observation index and either the distance to the slot's last
position (when that position is nonzero in some coordinate) or the
maxDistance sentinel (when the slot was never observed). -/
def GetDistanceStrays (lastStraysPos : List Pos3) (maxDistance : ℚ)
    (straysPos : List Pos3) : List (List (ℤ × ℚ)) :=
  lastStraysPos.map fun lastPos =>
    (List.range straysPos.length).map fun i =>
      (Int.ofNat i,
        if lastPos.1 ≠ 0 ∨ lastPos.2.1 ≠ 0 ∨ lastPos.2.2 ≠ 0 then
          sqDist lastPos (straysPos.getD i default)
        else maxDistance)

/-- vtkPlusNDITracker::SortDistanceStrays: each row is sorted ascending by
distance (std::sort with a strict less-than comparator; the sorted order on
ties is unspecified in the source and insertion sort realizes one valid
order). -/
def SortDistanceStrays (distanceToLastMarkers : List (List (ℤ × ℚ))) :
    List (List (ℤ × ℚ)) :=
  distanceToLastMarkers.map fun row => row.insertionSort fun a b => a.2 < b.2

/-- State of the matching loop: the two vectors minMatchedIndex and
minDistance, indexed by slot. -/
structure MatchState where
  minMatchedIndex : ℕ → ℤ
  minDistance : ℕ → ℚ

/-- Write slot i of both vectors. -/
def setSlot (st : MatchState) (i : ℕ) (o : ℤ) (d : ℚ) : MatchState :=
  { minMatchedIndex := Function.update st.minMatchedIndex i o
    minDistance := Function.update st.minDistance i d }

/-- The betterMatchAlreadyExist inner k-loop of MatchStrays: some other slot
k currently claims the candidate observation at a strictly smaller distance. -/
def betterMatchCheck (st : MatchState) (i : ℕ) (c : ℤ × ℚ) : List ℕ → Bool
  | [] => false
  | k :: rest =>
    if i ≠ k ∧ c.1 = st.minMatchedIndex k ∧ st.minDistance k < c.2 then true
    else betterMatchCheck st i c rest

/-- The j-loop of MatchStrays for one slot i, walking the slot's sorted
candidate row.  Returns the updated state and the checkFromTheTop flag.
Branches, in source order: a slot already at noMatchFlag breaks out; a
candidate at the maxDistance sentinel resets the slot to noMatchFlag; a
candidate already claimed by a strictly closer slot is skipped, except that
running past the last candidate (j == numberOfStrays - 1) resets the slot to
noMatchFlag; an unclaimed candidate different from the current claim is
adopted and restarts the outer loop; an unclaimed candidate equal to the
current claim keeps it (remainedMinIndex) and ends the scan. -/
def scanSlotAux (noMatchFlag : ℤ) (maxDistance : ℚ) (M : ℕ) (i : ℕ) :
    MatchState → List (ℤ × ℚ) → MatchState × Bool
  | st, [] => (st, false)
  | st, c :: rest =>
    if st.minMatchedIndex i = noMatchFlag then (st, false)
    else if c.2 = maxDistance then (setSlot st i noMatchFlag maxDistance, false)
    else if betterMatchCheck st i c (List.range M) then
      match rest with
      | [] => (setSlot st i noMatchFlag maxDistance, false)
      | c2 :: rest2 => scanSlotAux noMatchFlag maxDistance M i st (c2 :: rest2)
    else if st.minMatchedIndex i ≠ c.1 then (setSlot st i c.1 c.2, true)
    else (st, false)

/-- One scan of slot i over its full candidate row. -/
def scanSlot (noMatchFlag : ℤ) (maxDistance : ℚ) (M : ℕ)
    (distanceToLastMarkers : List (List (ℤ × ℚ))) (st : MatchState) (i : ℕ) :
    MatchState × Bool :=
  scanSlotAux noMatchFlag maxDistance M i st (distanceToLastMarkers.getD i [])

/-- The i-loop of MatchStrays: scan the slots in order, aborting the pass as
soon as a scan sets checkFromTheTop. -/
def passSlots (noMatchFlag : ℤ) (maxDistance : ℚ) (M : ℕ)
    (distanceToLastMarkers : List (List (ℤ × ℚ))) :
    MatchState → List ℕ → MatchState × Bool
  | st, [] => (st, false)
  | st, i :: rest =>
    if (scanSlot noMatchFlag maxDistance M distanceToLastMarkers st i).2 then
      ((scanSlot noMatchFlag maxDistance M distanceToLastMarkers st i).1, true)
    else
      passSlots noMatchFlag maxDistance M distanceToLastMarkers
        (scanSlot noMatchFlag maxDistance M distanceToLastMarkers st i).1 rest

/-- The while (checkFromTheTop) loop of MatchStrays, with explicit fuel: each
round runs one (possibly aborted) pass over the slots and repeats while a
scan requested a restart.  The source loop has no fuel; every theorem below
holds for every fuel value, and the concrete runs use a fuel large enough
for the loop to reach its fixed point. -/
def matchLoop (noMatchFlag : ℤ) (maxDistance : ℚ) (M : ℕ)
    (distanceToLastMarkers : List (List (ℤ × ℚ))) : ℕ → MatchState → MatchState
  | 0, st => st
  | fuel + 1, st =>
    if (passSlots noMatchFlag maxDistance M distanceToLastMarkers st (List.range M)).2 then
      matchLoop noMatchFlag maxDistance M distanceToLastMarkers fuel
        (passSlots noMatchFlag maxDistance M distanceToLastMarkers st (List.range M)).1
    else (passSlots noMatchFlag maxDistance M distanceToLastMarkers st (List.range M)).1

/-- Initial state of MatchStrays: both vectors start at the sentinels, then
every slot whose first sorted candidate is not at the sentinel adopts that
candidate. -/
def initMatchState (noMatchFlag : ℤ) (maxDistance : ℚ)
    (distanceToLastMarkers : List (List (ℤ × ℚ))) : MatchState :=
  { minMatchedIndex := fun i =>
      let c := (distanceToLastMarkers.getD i []).getD 0 ((-1 : ℤ), maxDistance)
      if c.2 ≠ maxDistance then c.1 else noMatchFlag
    minDistance := fun i =>
      let c := (distanceToLastMarkers.getD i []).getD 0 ((-1 : ℤ), maxDistance)
      if c.2 ≠ maxDistance then c.2 else maxDistance }

/-- vtkPlusNDITracker::MatchStrays: run the conflict-resolution loop and
return the minMatchedIndex vector (length MaxNumberOfStrays = M). -/
def MatchStrays (M : ℕ) (noMatchFlag : ℤ) (maxDistance : ℚ) (fuel : ℕ)
    (distanceToLastMarkers : List (List (ℤ × ℚ))) : List ℤ :=
  (List.range M).map
    (matchLoop noMatchFlag maxDistance M distanceToLastMarkers fuel
      (initMatchState noMatchFlag maxDistance distanceToLastMarkers)).minMatchedIndex

/-- The unusedStrays list of UpdateLastStraysData: observation indices that
no slot matched, in ascending order. -/
def unusedStraysList (numberOfStrays : ℕ) (minMatchedIndex : List ℤ) : List ℕ :=
  (List.range numberOfStrays).filter fun i => !(minMatchedIndex.any fun v => v == (i : ℤ))

/-- The per-slot loop of UpdateLastStraysData, walking minMatchedIndex in
lockstep with the (position, status) slots and consuming the unused queue:
a matched slot takes its matched observation and TOOL_OK; an unmatched slot
takes the first unused observation and TOOL_OK when one remains, and
otherwise keeps its position and is marked TOOL_MISSING. -/
def updateSlots (noMatchFlag : ℤ) (straysPos : List Pos3) :
    List ℤ → List (Pos3 × ToolStatus) → List ℕ → List (Pos3 × ToolStatus)
  | _, [], _ => []
  | [], _ :: _, _ => []
  | m :: ms, slot :: rest, unused =>
    if m ≠ noMatchFlag then
      (straysPos.getD m.toNat default, TOOL_OK) ::
        updateSlots noMatchFlag straysPos ms rest unused
    else
      match unused with
      | [] => (slot.1, TOOL_MISSING) :: updateSlots noMatchFlag straysPos ms rest []
      | u :: us =>
        (straysPos.getD u default, TOOL_OK) :: updateSlots noMatchFlag straysPos ms rest us

/-- vtkPlusNDITracker::UpdateLastStraysData: compute the unused observations
and rewrite LastStraysPos / LastStraysStatus slot by slot. -/
def UpdateLastStraysData (numberOfStrays : ℕ) (noMatchFlag : ℤ)
    (minMatchedIndex : List ℤ) (straysPos : List Pos3) (lastStraysPos : List Pos3)
    (lastStraysStatus : List ToolStatus) : List Pos3 × List ToolStatus :=
  let unused := unusedStraysList numberOfStrays minMatchedIndex
  let upd := updateSlots noMatchFlag straysPos minMatchedIndex
    (lastStraysPos.zip lastStraysStatus) unused
  (upd.map Prod.fst, upd.map Prod.snd)

/-- The assignment vector computed by the stray section of InternalUpdate:
distance matrix, per-slot sort, then MatchStrays, with M = MaxNumberOfStrays
= length of LastStraysPos. -/
def strayMatcherOutput (noMatchFlag : ℤ) (maxDistance : ℚ) (fuel : ℕ)
    (lastStraysPos straysPos : List Pos3) : List ℤ :=
  MatchStrays lastStraysPos.length noMatchFlag maxDistance fuel
    (SortDistanceStrays (GetDistanceStrays lastStraysPos maxDistance straysPos))

/-- The stray section of vtkPlusNDITracker::InternalUpdate (lines 458-466):
one full matching pass over the current observations, with M =
MaxNumberOfStrays = length of LastStraysPos (ReadConfiguration sizes both
stray vectors to MaxNumberOfStrays). -/
def strayMatchingPass (noMatchFlag : ℤ) (maxDistance : ℚ) (fuel : ℕ)
    (lastStraysPos : List Pos3) (lastStraysStatus : List ToolStatus)
    (straysPos : List Pos3) : List Pos3 × List ToolStatus :=
  UpdateLastStraysData straysPos.length noMatchFlag
    (strayMatcherOutput noMatchFlag maxDistance fuel lastStraysPos straysPos) straysPos
    lastStraysPos lastStraysStatus

/-! ### Analysis predicates for the matcher

These predicates are not part of the embedded code; they describe states of
the matching loop and are used to prove the slot-update claims. -/

/-- Candidate row of slot i in the distance matrix. -/
def rowOf (distanceToLastMarkers : List (List (ℤ × ℚ))) (i : ℕ) : List (ℤ × ℚ) :=
  distanceToLastMarkers.getD i []

/-- A row none of whose distances is the sentinel: the row of a slot that was
observed before (GetDistanceStrays fills every entry of such a row with a
true distance). -/
def InitializedRow (maxDistance : ℚ) (row : List (ℤ × ℚ)) : Prop :=
  ∀ c ∈ row, c.2 ≠ maxDistance

/-- Some other slot k currently claims the candidate observation c.1 at a
strictly smaller distance (the proposition decided by the
betterMatchAlreadyExist loop over k < M). -/
def blockedP (M : ℕ) (st : MatchState) (i : ℕ) (c : ℤ × ℚ) : Prop :=
  ∃ k, k < M ∧ i ≠ k ∧ c.1 = st.minMatchedIndex k ∧ st.minDistance k < c.2

/-- Well-formedness of the sorted distance matrix handed to MatchStrays, as
established by GetDistanceStrays followed by SortDistanceStrays: M rows of N
candidates; candidate indices are observation indices below N, pairwise
distinct and covering all of them; each row either consists entirely of
sentinel entries or has no sentinel entry; and no observation index collides
with the noMatchFlag sentinel. -/
structure RowsOk (noMatchFlag : ℤ) (maxDistance : ℚ) (M N : ℕ)
    (D : List (List (ℤ × ℚ))) : Prop where
  npos : 0 < N
  rowlen : ∀ i, i < M → (rowOf D i).length = N
  fstMem : ∀ i, i < M → ∀ c ∈ rowOf D i, ∃ o : ℕ, o < N ∧ c.1 = (o : ℤ)
  fstPairwise : ∀ i, i < M → (rowOf D i).Pairwise fun a b => a.1 ≠ b.1
  fstCover : ∀ i, i < M → ∀ o : ℕ, o < N → ∃ c ∈ rowOf D i, c.1 = (o : ℤ)
  uniform : ∀ i, i < M →
    (∀ c ∈ rowOf D i, c.2 = maxDistance) ∨ InitializedRow maxDistance (rowOf D i)
  sentinel : ∀ o : ℕ, o < N → (o : ℤ) ≠ noMatchFlag

/-- Invariant of the matching loop.  For every slot i below M:
claimNone: a slot with an initialized row that is at noMatchFlag has every
candidate of its row blocked by another slot (in particular every
observation is claimed by some slot whenever such a slot exists);
claimAt: a matched slot claims a candidate of its own row, with every
earlier candidate of the row blocked;
uninitNone: a slot whose row is not initialized is at noMatchFlag. -/
structure MatchInv (noMatchFlag : ℤ) (maxDistance : ℚ) (M : ℕ)
    (D : List (List (ℤ × ℚ))) (st : MatchState) : Prop where
  claimNone : ∀ i, i < M → InitializedRow maxDistance (rowOf D i) →
    st.minMatchedIndex i = noMatchFlag → ∀ c ∈ rowOf D i, blockedP M st i c
  claimAt : ∀ i, i < M → st.minMatchedIndex i ≠ noMatchFlag →
    ∃ pre c post, rowOf D i = pre ++ c :: post ∧ c.1 = st.minMatchedIndex i ∧
      c.2 = st.minDistance i ∧ ∀ cp ∈ pre, blockedP M st i cp
  uninitNone : ∀ i, i < M → ¬ InitializedRow maxDistance (rowOf D i) →
    st.minMatchedIndex i = noMatchFlag

/-- Number of noMatchFlag entries among the first i entries of the
minMatchedIndex vector: the rank of slot i in the subsequence of unmatched
slots, which determines which unused observation the slot-update loop hands
to it. -/
def noneRankUpTo (noMatchFlag : ℤ) (minMatchedIndex : List ℤ) (i : ℕ) : ℕ :=
  ((minMatchedIndex.take i).filter fun v => v == noMatchFlag).length

/-! ## Broadcast server (vtkPlusOpenIGTLinkServer.cxx) -/

/-- Number of recent command UIDs remembered per client
(NUMBER_OF_RECENT_COMMAND_IDS_STORED, line 52). -/
def NUMBER_OF_RECENT_COMMAND_IDS_STORED : ℕ := 10

/-- Result of the command-dispatch step for one received command UID in
DataReceiverThread.  queuedUid is the uid passed to
PlusCommandProcessor->QueueCommand (none when nothing was enqueued);
responses records queued error replies (none occur on the dedup path). -/
structure CommandStepResult where
  previousCommandIds : List ℕ
  queuedUid : Option ℕ
  responses : List ℕ
deriving DecidableEq

/-- Deduplication and enqueue step shared verbatim by the legacy STRING path
(lines 642-653) and the v3 Command path (lines 679-690) of
DataReceiverThread.  previousCommandIds is the per-receiver-thread (hence
per-client) deque, front = oldest.  A uid found in the deque is ignored: no
QueueCommand call, no response, deque unchanged.  A new uid is pushed at the
back, the front is popped when the size exceeds
NUMBER_OF_RECENT_COMMAND_IDS_STORED, and the command is enqueued. -/
def receiveCommandUid (previousCommandIds : List ℕ) (uid : ℕ) : CommandStepResult :=
  if uid ∈ previousCommandIds then
    { previousCommandIds := previousCommandIds, queuedUid := none, responses := [] }
  else
    let w := previousCommandIds ++ [uid]
    let w := if NUMBER_OF_RECENT_COMMAND_IDS_STORED < w.length then w.tail else w
    { previousCommandIds := w, queuedUid := some uid, responses := [] }

/-- The per-client receiver loop restricted to command UIDs: the deque state
after processing a sequence of received command UIDs, starting from the empty
deque created when the receiver thread starts. -/
def runReceiverUids (uids : List ℕ) : List ℕ :=
  uids.foldl (fun w uid => (receiveCommandUid w uid).previousCommandIds) []

/-- The last n elements of a list of received UIDs (most recent first). -/
def lastReceivedUids (uids : List ℕ) (n : ℕ) : List ℕ :=
  uids.reverse.take n

/-! ### Frame-count computation of the data sender
(SendLatestFramesToClients, lines 376-419)

MaxTimeSpentWithProcessingMs and LastProcessingTimePerFrameMs are int fields
(the call std::max(a / b, 1) type-checks in the source only with int
operands), so the division is C integer division, truncation toward zero. -/

/-- Raising of LastProcessingTimePerFrameMs followed by the clamped frame
count: the source raises the per-frame time to at least 1 to avoid division
by zero, takes the max of the quotient with 1, then the min with
MaxNumberOfIgtlMessagesToSend.  Returns (numberOfFramesToGet, the updated
LastProcessingTimePerFrameMs). -/
def computeNumberOfFramesToGet (maxTimeSpentWithProcessingMs
    lastProcessingTimePerFrameMs maxNumberOfIgtlMessagesToSend : ℤ) : ℤ × ℤ :=
  let lastMs := if lastProcessingTimePerFrameMs < 1 then 1
    else lastProcessingTimePerFrameMs
  let numberOfFramesToGet := max (Int.tdiv maxTimeSpentWithProcessingMs lastMs) 1
  (min numberOfFramesToGet maxNumberOfIgtlMessagesToSend, lastMs)

/-- Modelled from the spec: the data-collector call
BroadcastChannel->GetTrackedFrameList(lastSentTs, list, n) is external to the
repository; per the spec it returns the frames newer than the watermark,
capped at the requested count n. -/
def getTrackedFrameListModel (frameTimestamps : List ℚ) (lastSentTrackedFrameTimestamp : ℚ)
    (numberOfFramesToGet : ℤ) : List ℚ :=
  (frameTimestamps.filter fun ts => lastSentTrackedFrameTimestamp < ts).take
    numberOfFramesToGet.toNat

/-! ### Keep-alive (SendLatestFramesToClients lines 421-436, KeepAlive 984-1021) -/

/-- Wire messages sent by the data sender, as far as the claims need them. -/
inductive IgtlServerMessage where
  | statusOk
deriving DecidableEq

/-- vtkPlusOpenIGTLinkServer::KeepAlive: one STATUS message with code
STATUS_OK is packed and sent to every connected client, in registry order. -/
def KeepAlive (clients : List ℕ) : List (ℕ × IgtlServerMessage) :=
  clients.map fun c => (c, IgtlServerMessage.statusOk)

/-- Outcome of the zero-frame branch of one sender cycle. -/
structure ZeroFrameCycleResult where
  sentMessages : List (ℕ × IgtlServerMessage)
  elapsedTimeSinceLastPacketSentSec : ℚ
  status : PlusStatus
deriving DecidableEq

/-- Zero-frame branch of SendLatestFramesToClients: the cycle produced no
tracked frames, the elapsed counter is incremented by the cycle duration, and
a keep-alive broadcast happens only when the counter is STRICTLY greater than
KeepAliveIntervalSec, in which case the counter is reset to zero and
PLUS_SUCCESS returned; otherwise nothing is sent and the function returns
PLUS_FAIL. -/
def sendLatestFramesZeroCase (keepAliveIntervalSec elapsedBefore cycleDurationSec : ℚ)
    (clients : List ℕ) : ZeroFrameCycleResult :=
  let elapsed := elapsedBefore + cycleDurationSec
  if keepAliveIntervalSec < elapsed then
    { sentMessages := KeepAlive clients
      elapsedTimeSinceLastPacketSentSec := 0
      status := PLUS_SUCCESS }
  else
    { sentMessages := []
      elapsedTimeSinceLastPacketSentSec := elapsed
      status := PLUS_FAIL }

/-! ### SendTrackedFrame (lines 827-900) -/

/-- A tracked frame: timestamp in system (monotonic) seconds plus the
remaining payload, abstracted as an opaque field. -/
structure TrackedFrame where
  timestamp : ℚ
  payload : ℕ
deriving DecidableEq

/-- Outcome of SendTrackedFrame: the frame as left by the call, the messages
packed and sent per client (carrying the timestamp they were packed with),
the ids of clients detected as disconnected, and the return status. -/
structure SendTrackedFrameResult where
  frame : TrackedFrame
  sentMessages : List (ℕ × ℚ)
  disconnectedClientIds : List ℕ
  status : PlusStatus
deriving DecidableEq

/-- vtkPlusOpenIGTLinkServer::SendTrackedFrame.  The transform repository is
updated (a failure only increments an error counter), the frame timestamp is
temporarily replaced by its UTC conversion (modelled as adding the
system-to-UTC offset), messages are packed for and sent to every client (the
per-client send outcome is an input oracle; a zero send marks the client
disconnected), and the original system timestamp is restored before the
function returns. -/
def SendTrackedFrame (utcOffset : ℚ) (transformRepositoryOk : Bool) (clients : List ℕ)
    (sendOk : ℕ → Bool) (trackedFrame : TrackedFrame) : SendTrackedFrameResult :=
  let numberOfErrors : ℕ := if transformRepositoryOk then 0 else 1
  -- save original timestamp, it is restored later
  let timestampSystem := trackedFrame.timestamp
  let timestampUniversal := timestampSystem + utcOffset
  let frameUtc : TrackedFrame := { trackedFrame with timestamp := timestampUniversal }
  let sentMessages := (clients.filter fun c => sendOk c).map fun c => (c, frameUtc.timestamp)
  let disconnectedClientIds := clients.filter fun c => ¬ sendOk c
  -- restore original timestamp
  let frameRestored : TrackedFrame := { frameUtc with timestamp := timestampSystem }
  { frame := frameRestored
    sentMessages := sentMessages
    disconnectedClientIds := disconnectedClientIds
    status := if numberOfErrors = 0 then PLUS_SUCCESS else PLUS_FAIL }

/-! ## Theorems for claims C3 to C10 -/

/-- C4, counterexample.  The claim states that a tool whose transform is
absent and whose OUT_OF_VOLUME bit is also set is reported OUT_OF_VIEW; at
the concrete port-status word 0x71 (valid mask plus NDI_OUT_OF_VOLUME) with
an absent transform, the code reports TOOL_OUT_OF_VOLUME, because the two
status tests are successive if-statements and the volume test overwrites the
view test. -/
theorem classifyToolStatus_absent_and_out_of_volume_is_out_of_volume :
    classifyToolStatus true 0x71 = TOOL_OUT_OF_VOLUME ∧
      TOOL_OUT_OF_VOLUME ≠ TOOL_OUT_OF_VIEW := by
  decide

/-- C4, amended.  For every TOOL-type source in a polling tick: a port-status
word missing any of TOOL_IN_PORT, INITIALIZED, ENABLED gives MISSING;
otherwise a set OUT_OF_VOLUME bit gives OUT_OF_VOLUME (taking precedence over
an absent transform, since the volume test overwrites the view test);
otherwise an absent transform gives OUT_OF_VIEW; otherwise OK. -/
theorem classifyToolStatus_cases (ndiToolAbsent : Bool) (ndiPortStatus : ℕ) :
    (ndiPortStatus &&& (NDI_TOOL_IN_PORT ||| NDI_INITIALIZED ||| NDI_ENABLED) ≠
        NDI_TOOL_IN_PORT ||| NDI_INITIALIZED ||| NDI_ENABLED →
      classifyToolStatus ndiToolAbsent ndiPortStatus = TOOL_MISSING) ∧
    (ndiPortStatus &&& (NDI_TOOL_IN_PORT ||| NDI_INITIALIZED ||| NDI_ENABLED) =
        NDI_TOOL_IN_PORT ||| NDI_INITIALIZED ||| NDI_ENABLED →
      ndiPortStatus &&& NDI_OUT_OF_VOLUME ≠ 0 →
      classifyToolStatus ndiToolAbsent ndiPortStatus = TOOL_OUT_OF_VOLUME) ∧
    (ndiPortStatus &&& (NDI_TOOL_IN_PORT ||| NDI_INITIALIZED ||| NDI_ENABLED) =
        NDI_TOOL_IN_PORT ||| NDI_INITIALIZED ||| NDI_ENABLED →
      ndiPortStatus &&& NDI_OUT_OF_VOLUME = 0 → ndiToolAbsent = true →
      classifyToolStatus ndiToolAbsent ndiPortStatus = TOOL_OUT_OF_VIEW) ∧
    (ndiPortStatus &&& (NDI_TOOL_IN_PORT ||| NDI_INITIALIZED ||| NDI_ENABLED) =
        NDI_TOOL_IN_PORT ||| NDI_INITIALIZED ||| NDI_ENABLED →
      ndiPortStatus &&& NDI_OUT_OF_VOLUME = 0 → ndiToolAbsent = false →
      classifyToolStatus ndiToolAbsent ndiPortStatus = TOOL_OK) := by
  refine ⟨fun h1 => ?_, fun h1 h2 => ?_, fun h1 h2 h3 => ?_, fun h1 h2 h3 => ?_⟩
  · simp [classifyToolStatus, h1]
  · simp [classifyToolStatus, h1, h2]
  · simp [classifyToolStatus, h1, h2, h3]
  · simp [classifyToolStatus, h1, h2, h3]

/-- C4, witness for the amended case analysis: the four cases evaluated at
concrete port-status words 0x00 (missing), 0x71 (volume bit set and absent
transform), 0x31 with absent transform, and 0x31 with present transform. -/
theorem classifyToolStatus_cases_witness :
    classifyToolStatus true 0x00 = TOOL_MISSING ∧
      classifyToolStatus true 0x71 = TOOL_OUT_OF_VOLUME ∧
      classifyToolStatus true 0x31 = TOOL_OUT_OF_VIEW ∧
      classifyToolStatus false 0x31 = TOOL_OK :=
  ⟨(classifyToolStatus_cases true 0x00).1 (by decide),
    (classifyToolStatus_cases true 0x71).2.1 (by decide) (by decide),
    (classifyToolStatus_cases true 0x31).2.2.1 (by decide) (by decide) rfl,
    (classifyToolStatus_cases false 0x31).2.2.2 (by decide) (by decide) rfl⟩

/-- C6, code_bug evidence.  One tool descriptor whose PHINF succeeds but
whose port-status word has the NDI_ENABLED bit clear: the identity-refresh
phase records PortEnabled = false, yet EnableToolPorts still returns
PLUS_SUCCESS, because the assignment of PLUS_FAIL in the not-enabled branch
hits the local int status that shadows the function-level accumulator. -/
theorem enableToolPorts_not_enabled_still_succeeds :
    EnableToolPortsFinalize PLUS_SUCCESS [⟨true, false, 0⟩] false false =
      (PLUS_SUCCESS, [some false]) := by
  decide

/-- A tool id used in concrete LED runs. -/
def probeToolId : String := "Probe"

/-- C7, counterexample.  With Recording true and a valid descriptor,
SetToolLED issues the LED command and returns PLUS_SUCCESS, refuting the
claim that it returns failure without issuing the command whenever Recording
is true (the rejecting guard actually triggers when Recording is false). -/
theorem setToolLED_recording_true_succeeds :
    SetToolLED true [(probeToolId, ⟨true, 1, -1⟩)] probeToolId 0 LedState.TR_LED_ON =
      (PLUS_SUCCESS, some (NdiSerialCommand.led 1 1 NDI_SOLID)) := by
  decide

/-- C7, amended.  The SetToolLED guard rejects when Recording is FALSE: for
every argument list, SetToolLED with Recording false returns PLUS_FAIL and
issues no command.  (It is Beep whose guard rejects when Recording is true,
as the second conjunct records.) -/
theorem setToolLED_guard_rejects_when_not_recording :
    (∀ (descriptors : List (String × NdiToolDescriptor)) (sourceId : String)
      (led : ℤ) (state : LedState),
      SetToolLED false descriptors sourceId led state = (PLUS_FAIL, none)) ∧
    (∀ n : ℤ, Beep true n = (PLUS_FAIL, none)) := by
  constructor
  · intro descriptors sourceId led state
    simp [SetToolLED]
  · intro n
    simp [Beep]

/-- C9, counterexample.  The stray id parsing to index 0 (digit characters 0
and 0) passes the guard strayMarkerIndex <= MaxNumberOfStrays with
MaxNumberOfStrays = 3, yet the accesses at strayMarkerIndex - 1 = -1 are out
of bounds, so the guard alone does not make the accesses safe for every
digit-parsing id. -/
theorem strayIndex_zero_passes_guard_but_out_of_bounds :
    strayMarkerGuard (strayMarkerIndexOfId strayId00) 3 ∧
      ¬ strayAccessInBounds (strayMarkerIndexOfId strayId00) 3 := by
  decide

/-- C9, amended.  For every source id and every MaxNumberOfStrays, when the
parsed stray index is at least 1, the guard strayMarkerIndex <=
MaxNumberOfStrays makes both accesses at strayMarkerIndex - 1 fall within
the vectors of length MaxNumberOfStrays. -/
theorem strayIndex_guard_with_positive_index_in_bounds (toolSourceId : String)
    (maxNumberOfStrays : ℕ) (h1 : 1 ≤ strayMarkerIndexOfId toolSourceId)
    (h2 : strayMarkerGuard (strayMarkerIndexOfId toolSourceId) maxNumberOfStrays) :
    strayAccessInBounds (strayMarkerIndexOfId toolSourceId) maxNumberOfStrays := by
  unfold strayMarkerGuard at h2
  unfold strayAccessInBounds
  omega

/-- C9, witness: the id parsing to stray index 1 with MaxNumberOfStrays = 3
satisfies the amended hypotheses and its accesses are in bounds. -/
theorem strayIndex_guard_witness :
    1 ≤ strayMarkerIndexOfId strayId01 ∧
      strayMarkerGuard (strayMarkerIndexOfId strayId01) 3 ∧
      strayAccessInBounds (strayMarkerIndexOfId strayId01) 3 :=
  ⟨by decide, by decide,
    strayIndex_guard_with_positive_index_in_bounds strayId01 3 (by decide) (by decide)⟩

/-- C3, counterexample.  The dedup window stores the last up-to-10 ACCEPTED
UIDs, not the last 10 RECEIVED ones: after the received sequence 1..11, 2,
12 (where the second 2 is ignored as a duplicate and hence not recorded),
UID 2 is among the last 10 received UIDs, yet a new command with UID 2 is
enqueued rather than ignored. -/
theorem duplicate_uid_in_last_ten_received_still_enqueued :
    2 ∈ lastReceivedUids [1, 2, 3, 4, 5, 6, 7, 8, 9, 10, 11, 2, 12]
        NUMBER_OF_RECENT_COMMAND_IDS_STORED ∧
      (receiveCommandUid
        (runReceiverUids [1, 2, 3, 4, 5, 6, 7, 8, 9, 10, 11, 2, 12]) 2).queuedUid ≠
        none := by
  decide

/-- C3, amended.  For every state of a client's dedup window and every
incoming command UID (whether parsed from a legacy CMD_n device name or taken
from a v3 CommandId; both paths run the identical dedup code), a UID already
present in the window leads to no enqueued command, no response, and an
unchanged window.  The window holds the last up-to-10 UIDs that were
accepted, which can differ from the last 10 received when ignored duplicates
intervene. -/
theorem duplicate_uid_in_window_not_enqueued (previousCommandIds : List ℕ) (uid : ℕ)
    (h : uid ∈ previousCommandIds) :
    receiveCommandUid previousCommandIds uid =
      { previousCommandIds := previousCommandIds, queuedUid := none, responses := [] } := by
  simp [receiveCommandUid, h]

/-- C3, witness: UID 7 is in the window consisting of exactly UID 7, and the
step leaves the window unchanged with nothing enqueued. -/
theorem duplicate_uid_witness :
    7 ∈ [7] ∧
      receiveCommandUid [7] 7 =
        { previousCommandIds := [7], queuedUid := none, responses := [] } :=
  ⟨by decide, duplicate_uid_in_window_not_enqueued [7] 7 (by decide)⟩

/-- C5, counterexample.  With the elapsed counter exactly equal to
KeepAliveIntervalSec (elapsed 1 = 1 + 0, interval 1) and one connected
client, the claim premise "elapsed greater than or equal to the interval"
holds, yet the code sends no STATUS message, leaves the counter at 1 and
returns PLUS_FAIL: the trigger is strictly greater than, not greater or
equal. -/
theorem keepalive_not_sent_at_exact_interval :
    (1 : ℚ) + 0 ≥ 1 ∧
      sendLatestFramesZeroCase 1 1 0 [0] =
        { sentMessages := [], elapsedTimeSinceLastPacketSentSec := 1,
          status := PLUS_FAIL } := by
  constructor
  · norm_num
  · simp [sendLatestFramesZeroCase, KeepAlive]

/-- C5, amended.  For any sender cycle that produced zero frames and in
which the elapsed time since the last packet is STRICTLY greater than
KeepAliveIntervalSec, exactly one STATUS OK message is sent to each
connected client (the client list holds distinct ids), and the elapsed
counter is reset to zero. -/
theorem keepalive_broadcast_when_interval_exceeded (keepAliveIntervalSec elapsedBefore
    cycleDurationSec : ℚ) (clients : List ℕ)
    (h : keepAliveIntervalSec < elapsedBefore + cycleDurationSec)
    (hnd : clients.Nodup) :
    (sendLatestFramesZeroCase keepAliveIntervalSec elapsedBefore cycleDurationSec
        clients).sentMessages = KeepAlive clients ∧
      (∀ c ∈ clients,
        ((sendLatestFramesZeroCase keepAliveIntervalSec elapsedBefore cycleDurationSec
          clients).sentMessages.filter fun p => p.1 == c).length = 1) ∧
      (sendLatestFramesZeroCase keepAliveIntervalSec elapsedBefore cycleDurationSec
        clients).elapsedTimeSinceLastPacketSentSec = 0 ∧
      (sendLatestFramesZeroCase keepAliveIntervalSec elapsedBefore cycleDurationSec
        clients).status = PLUS_SUCCESS := by
  have hstep : sendLatestFramesZeroCase keepAliveIntervalSec elapsedBefore
      cycleDurationSec clients =
      { sentMessages := KeepAlive clients, elapsedTimeSinceLastPacketSentSec := 0,
        status := PLUS_SUCCESS } := by
    simp [sendLatestFramesZeroCase, h]
  refine ⟨by simp [hstep], ?_, by simp [hstep], by simp [hstep]⟩
  intro c hc
  rw [hstep]
  have hcount : ∀ l : List ℕ,
      ((KeepAlive l).filter fun p => p.1 == c).length = l.count c := by
    intro l
    induction l with
    | nil => simp [KeepAlive]
    | cons a t ih =>
      by_cases hac : a = c
      · subst hac
        simp [KeepAlive, List.count_cons] at ih ⊢
        omega
      · simp [KeepAlive, List.count_cons, hac] at ih ⊢
        simpa [Ne.symm hac] using ih
  simp only [hcount]
  exact List.count_eq_one_of_mem hnd hc

/-- C5, witness: interval 1, elapsed 2 + 0, single client 5. -/
theorem keepalive_broadcast_witness :
    (1 : ℚ) < 2 + 0 ∧ ([5] : List ℕ).Nodup ∧
      ((sendLatestFramesZeroCase 1 2 0 [5]).sentMessages = KeepAlive [5] ∧
        (∀ c ∈ [5],
          ((sendLatestFramesZeroCase 1 2 0 [5]).sentMessages.filter
            fun p => p.1 == c).length = 1) ∧
        (sendLatestFramesZeroCase 1 2 0 [5]).elapsedTimeSinceLastPacketSentSec = 0 ∧
        (sendLatestFramesZeroCase 1 2 0 [5]).status = PLUS_SUCCESS) :=
  ⟨by norm_num, by decide,
    keepalive_broadcast_when_interval_exceeded 1 2 0 [5] (by norm_num) (by decide)⟩

/-- C8, confirmed.  Each sender cycle pulls at most clamp(
MaxTimeSpentWithProcessingMs / LastProcessingTimePerFrameMs, 1,
MaxNumberOfIgtlMessagesToSend) frames newer than
LastSentTrackedFrameTimestamp, where LastProcessingTimePerFrameMs is first
raised to at least 1; the quotient is C integer division, which agrees with
mathematical floor division for the nonnegative operands involved. -/
theorem frame_pull_count_clamped (maxTimeSpentWithProcessingMs
    lastProcessingTimePerFrameMs maxNumberOfIgtlMessagesToSend : ℤ)
    (frameTimestamps : List ℚ) (lastSentTrackedFrameTimestamp : ℚ)
    (hMaxT : 0 ≤ maxTimeSpentWithProcessingMs)
    (hMaxMsg : 1 ≤ maxNumberOfIgtlMessagesToSend) :
    (computeNumberOfFramesToGet maxTimeSpentWithProcessingMs
        lastProcessingTimePerFrameMs maxNumberOfIgtlMessagesToSend).1 =
      min (max (maxTimeSpentWithProcessingMs / max lastProcessingTimePerFrameMs 1) 1)
        maxNumberOfIgtlMessagesToSend ∧
    1 ≤ (computeNumberOfFramesToGet maxTimeSpentWithProcessingMs
        lastProcessingTimePerFrameMs maxNumberOfIgtlMessagesToSend).1 ∧
    (computeNumberOfFramesToGet maxTimeSpentWithProcessingMs
        lastProcessingTimePerFrameMs maxNumberOfIgtlMessagesToSend).1 ≤
      maxNumberOfIgtlMessagesToSend ∧
    (getTrackedFrameListModel frameTimestamps lastSentTrackedFrameTimestamp
        (computeNumberOfFramesToGet maxTimeSpentWithProcessingMs
          lastProcessingTimePerFrameMs maxNumberOfIgtlMessagesToSend).1).length ≤
      (min (max (maxTimeSpentWithProcessingMs / max lastProcessingTimePerFrameMs 1) 1)
        maxNumberOfIgtlMessagesToSend).toNat := by
  have hlast : (if lastProcessingTimePerFrameMs < 1 then 1
      else lastProcessingTimePerFrameMs) = max lastProcessingTimePerFrameMs 1 := by
    rcases lt_or_le lastProcessingTimePerFrameMs 1 with hlt | hle
    · simp [hlt, max_eq_right (le_of_lt hlt)]
    · simp [not_lt.mpr hle, max_eq_left hle]
  have hpos : 0 < max lastProcessingTimePerFrameMs 1 := by
    have := le_max_right lastProcessingTimePerFrameMs (1 : ℤ)
    omega
  have htdiv : Int.tdiv maxTimeSpentWithProcessingMs
      (max lastProcessingTimePerFrameMs 1) =
      maxTimeSpentWithProcessingMs / max lastProcessingTimePerFrameMs 1 :=
    Int.tdiv_eq_ediv hMaxT (le_of_lt hpos)
  have hfst : (computeNumberOfFramesToGet maxTimeSpentWithProcessingMs
      lastProcessingTimePerFrameMs maxNumberOfIgtlMessagesToSend).1 =
      min (max (maxTimeSpentWithProcessingMs / max lastProcessingTimePerFrameMs 1) 1)
        maxNumberOfIgtlMessagesToSend := by
    simp only [computeNumberOfFramesToGet]
    rw [hlast, htdiv]
  refine ⟨hfst, ?_, ?_, ?_⟩
  · rw [hfst]
    have h1 : (1 : ℤ) ≤ max (maxTimeSpentWithProcessingMs /
        max lastProcessingTimePerFrameMs 1) 1 := le_max_right _ _
    omega
  · rw [hfst]
    exact min_le_right _ _
  · rw [hfst]
    unfold getTrackedFrameListModel
    calc ((frameTimestamps.filter fun ts => lastSentTrackedFrameTimestamp < ts).take
          (min (max (maxTimeSpentWithProcessingMs / max lastProcessingTimePerFrameMs 1)
            1) maxNumberOfIgtlMessagesToSend).toNat).length ≤
        (min (max (maxTimeSpentWithProcessingMs / max lastProcessingTimePerFrameMs 1)
          1) maxNumberOfIgtlMessagesToSend).toNat := by
          rw [List.length_take]
          exact min_le_left _ _
      _ = _ := rfl

/-- C8, witness: MaxTimeSpentWithProcessingMs = 100,
LastProcessingTimePerFrameMs = 0 (raised to 1), MaxNumberOfIgtlMessagesToSend
= 5, three frames in the buffer after the watermark. -/
theorem frame_pull_count_witness :
    (0 : ℤ) ≤ 100 ∧ (1 : ℤ) ≤ 5 ∧
      ((computeNumberOfFramesToGet 100 0 5).1 = min (max ((100 : ℤ) / max 0 1) 1) 5 ∧
        1 ≤ (computeNumberOfFramesToGet 100 0 5).1 ∧
        (computeNumberOfFramesToGet 100 0 5).1 ≤ 5 ∧
        (getTrackedFrameListModel [1, 2, 3] 0 (computeNumberOfFramesToGet 100 0 5).1).length ≤
          (min (max ((100 : ℤ) / max 0 1) 1) 5).toNat) :=
  ⟨by decide, by decide, frame_pull_count_clamped 100 0 5 [1, 2, 3] 0 (by decide) (by decide)⟩

/-- C10, confirmed.  SendTrackedFrame packs and sends every message with the
UTC-converted timestamp and restores the original system timestamp before
returning: for every offset, transform-repository outcome, client list,
per-client send outcome and frame, the caller's frame is unchanged by the
call, and every sent message carried the UTC timestamp. -/
theorem sendTrackedFrame_restores_timestamp (utcOffset : ℚ)
    (transformRepositoryOk : Bool) (clients : List ℕ) (sendOk : ℕ → Bool)
    (trackedFrame : TrackedFrame) :
    (SendTrackedFrame utcOffset transformRepositoryOk clients sendOk
        trackedFrame).frame = trackedFrame ∧
      (SendTrackedFrame utcOffset transformRepositoryOk clients sendOk
        trackedFrame).sentMessages =
        (clients.filter fun c => sendOk c).map
          (fun c => (c, trackedFrame.timestamp + utcOffset)) := by
  cases trackedFrame
  simp [SendTrackedFrame]

/-! ## Matcher invariant lemmas (supporting the stray-update claim) -/

lemma setSlot_mmi (st : MatchState) (i : ℕ) (o : ℤ) (d : ℚ) (k : ℕ) :
    (setSlot st i o d).minMatchedIndex k = if k = i then o else st.minMatchedIndex k := by
  simp [setSlot, Function.update_apply]

lemma setSlot_mind (st : MatchState) (i : ℕ) (o : ℤ) (d : ℚ) (k : ℕ) :
    (setSlot st i o d).minDistance k = if k = i then d else st.minDistance k := by
  simp [setSlot, Function.update_apply]

lemma betterMatchCheck_eq_true_iff (st : MatchState) (i : ℕ) (c : ℤ × ℚ) :
    ∀ ks : List ℕ, betterMatchCheck st i c ks = true ↔
      ∃ k ∈ ks, i ≠ k ∧ c.1 = st.minMatchedIndex k ∧ st.minDistance k < c.2 := by
  intro ks
  induction ks with
  | nil => simp [betterMatchCheck]
  | cons a t ih =>
    by_cases h : i ≠ a ∧ c.1 = st.minMatchedIndex a ∧ st.minDistance a < c.2
    · simp only [betterMatchCheck, if_pos h]
      exact ⟨fun _ => ⟨a, List.mem_cons_self a t, h⟩, fun _ => by trivial⟩
    · simp only [betterMatchCheck, if_neg h]
      rw [ih]
      constructor
      · rintro ⟨k, hk, hp⟩
        exact ⟨k, List.mem_cons_of_mem a hk, hp⟩
      · rintro ⟨k, hk, hp⟩
        rcases List.mem_cons.mp hk with hka | hkt
        · exact absurd (hka ▸ hp) h
        · exact ⟨k, hkt, hp⟩

lemma betterMatchCheck_range_iff (M : ℕ) (st : MatchState) (i : ℕ) (c : ℤ × ℚ) :
    betterMatchCheck st i c (List.range M) = true ↔ blockedP M st i c := by
  rw [betterMatchCheck_eq_true_iff]
  unfold blockedP
  constructor
  · rintro ⟨k, hk, hp⟩
    exact ⟨k, List.mem_range.mp hk, hp⟩
  · rintro ⟨k, hk, hp⟩
    exact ⟨k, List.mem_range.mpr hk, hp⟩

/-- Two decompositions of one list around distinct elements locate each
element relative to the other decomposition. -/
lemma mem_of_two_decompositions {α : Type} {a b : α} (hab : a ≠ b) :
    ∀ (done : List α) {pre post rest : List α},
      done ++ b :: rest = pre ++ a :: post →
      (a ∈ done ∧ b ∈ post) ∨ (a ∈ rest ∧ b ∈ pre) := by
  intro done
  induction done with
  | nil =>
    intro pre post rest h
    cases pre with
    | nil =>
      simp only [List.nil_append] at h
      obtain ⟨hba, _⟩ := List.cons.inj h
      exact absurd hba.symm hab
    | cons p pre2 =>
      simp only [List.nil_append, List.cons_append] at h
      obtain ⟨hbp, hrest⟩ := List.cons.inj h
      refine Or.inr ⟨?_, ?_⟩
      · rw [hrest]
        exact List.mem_append_right pre2 (List.mem_cons_self a post)
      · rw [hbp]
        exact List.mem_cons_self p pre2
  | cons dd done2 ih =>
    intro pre post rest h
    cases pre with
    | nil =>
      simp only [List.nil_append, List.cons_append] at h
      obtain ⟨hdda, hpost⟩ := List.cons.inj h
      refine Or.inl ⟨?_, ?_⟩
      · rw [hdda]
        exact List.mem_cons_self a done2
      · rw [← hpost]
        exact List.mem_append_right done2 (List.mem_cons_self b rest)
    | cons p pre2 =>
      simp only [List.cons_append] at h
      obtain ⟨hddp, htail⟩ := List.cons.inj h
      rcases ih htail with ⟨ha, hb⟩ | ⟨ha, hb⟩
      · exact Or.inl ⟨List.mem_cons_of_mem dd ha, hb⟩
      · exact Or.inr ⟨ha, List.mem_cons_of_mem p hb⟩

/-- Transfer of a blocked fact across a write to slot r: either the witness
is a slot other than r and survives unchanged, or it is r itself and the
departure hypothesis supplies a replacement witness. -/
lemma blockedP_setSlot {M : ℕ} {st : MatchState} {i : ℕ} {c : ℤ × ℚ} {r : ℕ}
    {o : ℤ} {d : ℚ} (hb : blockedP M st i c)
    (hdep : c.1 = st.minMatchedIndex r → st.minDistance r < c.2 →
      ∃ k, k < M ∧ i ≠ k ∧ k ≠ r ∧ c.1 = st.minMatchedIndex k ∧ st.minDistance k < c.2) :
    blockedP M (setSlot st r o d) i c := by
  obtain ⟨k, hkM, hik, hmk, hdk⟩ := hb
  by_cases hkr : k = r
  · subst hkr
    obtain ⟨k2, hk2M, hik2, hk2r, hmk2, hdk2⟩ := hdep hmk hdk
    exact ⟨k2, hk2M, hik2, by rw [setSlot_mmi, if_neg hk2r]; exact hmk2,
      by rw [setSlot_mind, if_neg hk2r]; exact hdk2⟩
  · exact ⟨k, hkM, hik, by rw [setSlot_mmi, if_neg hkr]; exact hmk,
      by rw [setSlot_mind, if_neg hkr]; exact hdk⟩

/-- When a matched slot r has its claim candidate blocked, some other slot
claims the same observation strictly closer. -/
lemma departure_of_claim_blocked {M : ℕ} {st : MatchState} {r : ℕ} {cr : ℤ × ℚ}
    (h1 : cr.1 = st.minMatchedIndex r) (h2 : cr.2 = st.minDistance r)
    (hblk : blockedP M st r cr) :
    ∃ k, k < M ∧ k ≠ r ∧ st.minMatchedIndex k = st.minMatchedIndex r ∧
      st.minDistance k < st.minDistance r := by
  obtain ⟨k, hkM, hrk, hmk, hdk⟩ := hblk
  exact ⟨k, hkM, fun h => hrk h.symm, by rw [← hmk, h1], by rw [← h2]; exact hdk⟩

/-- An observation index appearing in a row differs from the noMatchFlag
sentinel. -/
lemma row_fst_ne_noMatchFlag {noMatchFlag : ℤ} {maxDistance : ℚ} {M N : ℕ}
    {D : List (List (ℤ × ℚ))} (ctx : RowsOk noMatchFlag maxDistance M N D)
    {i : ℕ} (hi : i < M) {c : ℤ × ℚ} (hc : c ∈ rowOf D i) : c.1 ≠ noMatchFlag := by
  obtain ⟨o, hoN, hco⟩ := ctx.fstMem i hi c hc
  rw [hco]
  exact ctx.sentinel o hoN

/-- Within one row, a candidate in the prefix of a decomposition differs in
observation index from the candidate at the split point. -/
lemma prefix_fst_ne {noMatchFlag : ℤ} {maxDistance : ℚ} {M N : ℕ}
    {D : List (List (ℤ × ℚ))} (ctx : RowsOk noMatchFlag maxDistance M N D)
    {i : ℕ} (hi : i < M) {pre post : List (ℤ × ℚ)} {ci : ℤ × ℚ}
    (hsplit : rowOf D i = pre ++ ci :: post) {cp : ℤ × ℚ} (hcp : cp ∈ pre) :
    cp.1 ≠ ci.1 := by
  have hpw := ctx.fstPairwise i hi
  rw [hsplit] at hpw
  have := (List.pairwise_append.mp hpw).2.2
  exact this cp hcp ci (List.mem_cons_self ci post)

/-- Blocked facts about the written slot itself survive a write, since their
witnesses are other slots. -/
lemma blockedP_setSlot_same_slot {M : ℕ} {st : MatchState} {r : ℕ} {c : ℤ × ℚ}
    {o : ℤ} {d : ℚ} (hb : blockedP M st r c) : blockedP M (setSlot st r o d) r c := by
  obtain ⟨k, hkM, hrk, hmk, hdk⟩ := hb
  have hkr : k ≠ r := fun h => hrk h.symm
  exact ⟨k, hkM, hrk, by rw [setSlot_mmi, if_neg hkr]; exact hmk,
    by rw [setSlot_mind, if_neg hkr]; exact hdk⟩

/-- Generic transfer of a blocked fact across a write to slot r, given a
departure witness (another slot claiming what r claims, strictly closer) and
a proof that the replacement witness cannot be the blocked slot itself. -/
lemma blockedP_transfer {M : ℕ} {st : MatchState} {r i : ℕ} {c : ℤ × ℚ}
    {o : ℤ} {d : ℚ}
    (dep : ∃ k, k < M ∧ k ≠ r ∧ st.minMatchedIndex k = st.minMatchedIndex r ∧
      st.minDistance k < st.minDistance r)
    (hik : ∀ k, k ≠ r → st.minMatchedIndex k = st.minMatchedIndex r →
      c.1 = st.minMatchedIndex r → i ≠ k)
    (hb : blockedP M st i c) : blockedP M (setSlot st r o d) i c := by
  refine blockedP_setSlot hb ?_
  intro hcm hcd
  obtain ⟨k, hkM, hkr, hmmEq, hmdLt⟩ := dep
  exact ⟨k, hkM, hik k hkr hmmEq hcm, hkr, hcm.trans hmmEq.symm, hmdLt.trans hcd⟩

/-- Exhaustion step: a matched slot r whose every candidate is blocked is
reset to the sentinels; the invariant is preserved. -/
lemma matchInv_exhaust {noMatchFlag : ℤ} {maxDistance : ℚ} {M N : ℕ}
    {D : List (List (ℤ × ℚ))} (ctx : RowsOk noMatchFlag maxDistance M N D)
    {st : MatchState} (hInv : MatchInv noMatchFlag maxDistance M D st)
    {r : ℕ} (hr : r < M) (hm : st.minMatchedIndex r ≠ noMatchFlag)
    (hall : ∀ c ∈ rowOf D r, blockedP M st r c) :
    MatchInv noMatchFlag maxDistance M D (setSlot st r noMatchFlag maxDistance) := by
  obtain ⟨pre, cr, post, hsp, hcr1, hcr2, hpre⟩ := hInv.claimAt r hr hm
  have hcrmem : cr ∈ rowOf D r := by
    rw [hsp]; exact List.mem_append_right pre (List.mem_cons_self cr post)
  have dep := departure_of_claim_blocked hcr1 hcr2 (hall cr hcrmem)
  refine ⟨?_, ?_, ?_⟩
  · -- claimNone
    intro i hiM hinit hiNone c hc
    by_cases hir : i = r
    · subst hir
      exact blockedP_transfer dep (fun k hkr _ _ h => hkr h.symm) (hall c hc)
    · have hiNoneOld : st.minMatchedIndex i = noMatchFlag := by
        rw [setSlot_mmi, if_neg hir] at hiNone
        exact hiNone
      refine blockedP_transfer dep ?_ (hInv.claimNone i hiM hinit hiNoneOld c hc)
      intro k hkr hmmEq _ h
      rw [h] at hiNoneOld
      rw [hiNoneOld] at hmmEq
      exact hm hmmEq.symm
  · -- claimAt
    intro i hiM hiSome
    by_cases hir : i = r
    · subst hir
      rw [setSlot_mmi, if_pos rfl] at hiSome
      exact absurd rfl hiSome
    · rw [setSlot_mmi, if_neg hir] at hiSome
      obtain ⟨pre2, ci, post2, hsp2, hci1, hci2, hpre2⟩ := hInv.claimAt i hiM hiSome
      refine ⟨pre2, ci, post2, hsp2, ?_, ?_, ?_⟩
      · rw [setSlot_mmi, if_neg hir]; exact hci1
      · rw [setSlot_mind, if_neg hir]; exact hci2
      · intro cp hcp
        refine blockedP_transfer dep ?_ (hpre2 cp hcp)
        intro k hkr hmmEq hcm h
        rw [h] at hci1
        rw [hmmEq] at hci1
        have : cp.1 = ci.1 := hcm.trans hci1.symm
        exact prefix_fst_ne ctx hiM hsp2 hcp this
  · -- uninitNone
    intro i hiM hninit
    by_cases hir : i = r
    · subst hir
      rw [setSlot_mmi, if_pos rfl]
    · rw [setSlot_mmi, if_neg hir]
      exact hInv.uninitNone i hiM hninit

/-- Settle step: a matched slot r adopts an unblocked candidate c different
from its current claim, having walked a prefix of blocked candidates; the
invariant is preserved. -/
lemma matchInv_settle {noMatchFlag : ℤ} {maxDistance : ℚ} {M N : ℕ}
    {D : List (List (ℤ × ℚ))} (ctx : RowsOk noMatchFlag maxDistance M N D)
    {st : MatchState} (hInv : MatchInv noMatchFlag maxDistance M D st)
    {r : ℕ} (hr : r < M) (hm : st.minMatchedIndex r ≠ noMatchFlag)
    {done rest : List (ℤ × ℚ)} {c : ℤ × ℚ}
    (hsplit : rowOf D r = done ++ c :: rest)
    (hdone : ∀ cp ∈ done, blockedP M st r cp)
    (hnb : ¬ blockedP M st r c) (hch : st.minMatchedIndex r ≠ c.1) :
    MatchInv noMatchFlag maxDistance M D (setSlot st r c.1 c.2) := by
  obtain ⟨pre, cr, post, hsp, hcr1, hcr2, hpre⟩ := hInv.claimAt r hr hm
  have hcmem : c ∈ rowOf D r := by
    rw [hsplit]; exact List.mem_append_right done (List.mem_cons_self c rest)
  have hcrc : cr ≠ c := by
    intro h
    exact hch (hcr1.symm.trans (congrArg Prod.fst h))
  have hdec := mem_of_two_decompositions hcrc done (hsplit.symm.trans hsp)
  have dep : ∃ k, k < M ∧ k ≠ r ∧ st.minMatchedIndex k = st.minMatchedIndex r ∧
      st.minDistance k < st.minDistance r := by
    rcases hdec with ⟨hcrdone, _⟩ | ⟨_, hcpre⟩
    · exact departure_of_claim_blocked hcr1 hcr2 (hdone cr hcrdone)
    · exact absurd (hpre c hcpre) hnb
  refine ⟨?_, ?_, ?_⟩
  · -- claimNone
    intro i hiM hinit hiNone cq hcq
    by_cases hir : i = r
    · subst hir
      rw [setSlot_mmi, if_pos rfl] at hiNone
      exact absurd hiNone (row_fst_ne_noMatchFlag ctx hr hcmem)
    · have hiNoneOld : st.minMatchedIndex i = noMatchFlag := by
        rw [setSlot_mmi, if_neg hir] at hiNone
        exact hiNone
      refine blockedP_transfer dep ?_ (hInv.claimNone i hiM hinit hiNoneOld cq hcq)
      intro k hkr hmmEq _ h
      rw [h] at hiNoneOld
      rw [hiNoneOld] at hmmEq
      exact hm hmmEq.symm
  · -- claimAt
    intro i hiM hiSome
    by_cases hir : i = r
    · subst hir
      refine ⟨done, c, rest, hsplit, ?_, ?_, ?_⟩
      · rw [setSlot_mmi, if_pos rfl]
      · rw [setSlot_mind, if_pos rfl]
      · intro cp hcp
        exact blockedP_setSlot_same_slot (hdone cp hcp)
    · rw [setSlot_mmi, if_neg hir] at hiSome
      obtain ⟨pre2, ci, post2, hsp2, hci1, hci2, hpre2⟩ := hInv.claimAt i hiM hiSome
      refine ⟨pre2, ci, post2, hsp2, ?_, ?_, ?_⟩
      · rw [setSlot_mmi, if_neg hir]; exact hci1
      · rw [setSlot_mind, if_neg hir]; exact hci2
      · intro cp hcp
        refine blockedP_transfer dep ?_ (hpre2 cp hcp)
        intro k hkr hmmEq hcm h
        rw [h] at hci1
        rw [hmmEq] at hci1
        have : cp.1 = ci.1 := hcm.trans hci1.symm
        exact prefix_fst_ne ctx hiM hsp2 hcp this
  · -- uninitNone
    intro i hiM hninit
    by_cases hir : i = r
    · subst hir
      exact absurd (hInv.uninitNone i hiM hninit) hm
    · rw [setSlot_mmi, if_neg hir]
      exact hInv.uninitNone i hiM hninit

/-- The scan of one slot preserves the matcher invariant: it either leaves
the state unchanged, exhausts the slot with every candidate blocked, or
settles on an unblocked candidate after a blocked prefix. -/
lemma scanSlotAux_inv {noMatchFlag : ℤ} {maxDistance : ℚ} {M N : ℕ}
    {D : List (List (ℤ × ℚ))} (ctx : RowsOk noMatchFlag maxDistance M N D)
    {st : MatchState} (hInv : MatchInv noMatchFlag maxDistance M D st)
    {r : ℕ} (hr : r < M) :
    ∀ (suffix done : List (ℤ × ℚ)), rowOf D r = done ++ suffix →
      (∀ cp ∈ done, blockedP M st r cp) →
      MatchInv noMatchFlag maxDistance M D
        (scanSlotAux noMatchFlag maxDistance M r st suffix).1 := by
  intro suffix
  induction suffix with
  | nil =>
    intro done _ _
    exact hInv
  | cons c rest ih =>
    intro done hsplit hdone
    by_cases h1 : st.minMatchedIndex r = noMatchFlag
    · unfold scanSlotAux
      rw [if_pos h1]
      exact hInv
    · have hcmem : c ∈ rowOf D r := by
        rw [hsplit]; exact List.mem_append_right done (List.mem_cons_self c rest)
      have hinitrow : InitializedRow maxDistance (rowOf D r) := by
        rcases ctx.uniform r hr with hallmax | hinit
        · exact absurd (hInv.uninitNone r hr (fun hini => hini c hcmem (hallmax c hcmem))) h1
        · exact hinit
      have h2 : ¬ c.2 = maxDistance := hinitrow c hcmem
      by_cases h3 : betterMatchCheck st r c (List.range M) = true
      · have hblk : blockedP M st r c := (betterMatchCheck_range_iff M st r c).mp h3
        cases rest with
        | nil =>
          have hall : ∀ cp ∈ rowOf D r, blockedP M st r cp := by
            intro cp hcp
            rw [hsplit] at hcp
            rcases List.mem_append.mp hcp with hcpd | hcpc
            · exact hdone cp hcpd
            · rcases List.mem_cons.mp hcpc with hcpeq | hcpn
              · rw [hcpeq]; exact hblk
              · exact absurd hcpn (List.not_mem_nil cp)
          unfold scanSlotAux
          rw [if_neg h1, if_neg h2, if_pos h3]
          exact matchInv_exhaust ctx hInv hr h1 hall
        | cons c2 rest2 =>
          have hstep : MatchInv noMatchFlag maxDistance M D
              (scanSlotAux noMatchFlag maxDistance M r st (c2 :: rest2)).1 := by
            refine ih (done ++ [c]) ?_ ?_
            · rw [hsplit, List.append_assoc]
              rfl
            · intro cp hcp
              rcases List.mem_append.mp hcp with hcpd | hcpc
              · exact hdone cp hcpd
              · rw [List.mem_singleton.mp hcpc]
                exact hblk
          unfold scanSlotAux
          rw [if_neg h1, if_neg h2, if_pos h3]
          exact hstep
      · have hnb : ¬ blockedP M st r c := fun hb =>
          h3 ((betterMatchCheck_range_iff M st r c).mpr hb)
        by_cases h4 : st.minMatchedIndex r ≠ c.1
        · unfold scanSlotAux
          rw [if_neg h1, if_neg h2, if_neg h3, if_pos h4]
          exact matchInv_settle ctx hInv hr h1 hsplit hdone hnb h4
        · unfold scanSlotAux
          rw [if_neg h1, if_neg h2, if_neg h3, if_neg h4]
          exact hInv

/-- One pass over a list of slot indices preserves the matcher invariant. -/
lemma passSlots_inv {noMatchFlag : ℤ} {maxDistance : ℚ} {M N : ℕ}
    {D : List (List (ℤ × ℚ))} (ctx : RowsOk noMatchFlag maxDistance M N D) :
    ∀ (ks : List ℕ) (st : MatchState), MatchInv noMatchFlag maxDistance M D st →
      (∀ i ∈ ks, i < M) →
      MatchInv noMatchFlag maxDistance M D
        (passSlots noMatchFlag maxDistance M D st ks).1 := by
  intro ks
  induction ks with
  | nil =>
    intro st hInv _
    exact hInv
  | cons i t ih =>
    intro st hInv hks
    have hiM : i < M := hks i (List.mem_cons_self i t)
    have hscan : MatchInv noMatchFlag maxDistance M D
        (scanSlot noMatchFlag maxDistance M D st i).1 := by
      refine scanSlotAux_inv ctx hInv hiM (rowOf D i) [] ?_ ?_
      · exact (List.nil_append _).symm
      · intro cp hcp
        exact absurd hcp (List.not_mem_nil cp)
    unfold passSlots
    by_cases hres : (scanSlot noMatchFlag maxDistance M D st i).2
    · rw [if_pos hres]
      exact hscan
    · rw [if_neg hres]
      exact ih _ hscan (fun j hj => hks j (List.mem_cons_of_mem i hj))

/-- The conflict-resolution loop preserves the matcher invariant for every
fuel value. -/
lemma matchLoop_inv {noMatchFlag : ℤ} {maxDistance : ℚ} {M N : ℕ}
    {D : List (List (ℤ × ℚ))} (ctx : RowsOk noMatchFlag maxDistance M N D) :
    ∀ (fuel : ℕ) (st : MatchState), MatchInv noMatchFlag maxDistance M D st →
      MatchInv noMatchFlag maxDistance M D
        (matchLoop noMatchFlag maxDistance M D fuel st) := by
  intro fuel
  induction fuel with
  | zero =>
    intro st hInv
    exact hInv
  | succ n ih =>
    intro st hInv
    have hpass := passSlots_inv ctx (List.range M) st hInv
      (fun j hj => List.mem_range.mp hj)
    unfold matchLoop
    by_cases hres : (passSlots noMatchFlag maxDistance M D st (List.range M)).2
    · rw [if_pos hres]
      exact ih _ hpass
    · rw [if_neg hres]
      exact hpass

/-- The initial state of MatchStrays satisfies the matcher invariant. -/
lemma initMatchState_inv {noMatchFlag : ℤ} {maxDistance : ℚ} {M N : ℕ}
    {D : List (List (ℤ × ℚ))} (ctx : RowsOk noMatchFlag maxDistance M N D) :
    MatchInv noMatchFlag maxDistance M D (initMatchState noMatchFlag maxDistance D) := by
  have hrow : ∀ i, i < M → ∃ c0 t, rowOf D i = c0 :: t := by
    intro i hiM
    have hlen : (rowOf D i).length = N := ctx.rowlen i hiM
    cases hcases : rowOf D i with
    | nil =>
      exfalso
      rw [hcases] at hlen
      have hN := ctx.npos
      simp at hlen
      omega
    | cons c0 t => exact ⟨c0, t, rfl⟩
  have hhead : ∀ i c0 t, rowOf D i = c0 :: t →
      ((D.getD i []).getD 0 ((-1 : ℤ), maxDistance)) = c0 := by
    intro i c0 t hct
    have : rowOf D i = D.getD i [] := rfl
    rw [← this, hct]
    rfl
  refine ⟨?_, ?_, ?_⟩
  · -- claimNone: vacuous at the initial state for initialized rows
    intro i hiM hinit hiNone c hc
    obtain ⟨c0, t, hct⟩ := hrow i hiM
    have hc0mem : c0 ∈ rowOf D i := by rw [hct]; exact List.mem_cons_self c0 t
    have hc0 : c0.2 ≠ maxDistance := hinit c0 hc0mem
    exfalso
    apply row_fst_ne_noMatchFlag ctx hiM hc0mem
    rw [← hiNone]
    simp only [initMatchState, hhead i c0 t hct, if_pos hc0]
  · -- claimAt: the head of the row is the initial claim
    intro i hiM hiSome
    obtain ⟨c0, t, hct⟩ := hrow i hiM
    by_cases hc0 : c0.2 ≠ maxDistance
    · refine ⟨[], c0, t, by rw [hct]; rfl, ?_, ?_, ?_⟩
      · simp only [initMatchState, hhead i c0 t hct, if_pos hc0]
      · simp only [initMatchState, hhead i c0 t hct, if_pos hc0]
      · intro cp hcp
        exact absurd hcp (List.not_mem_nil cp)
    · exfalso
      apply hiSome
      simp only [initMatchState, hhead i c0 t hct, if_neg hc0]
  · -- uninitNone
    intro i hiM hninit
    obtain ⟨c0, t, hct⟩ := hrow i hiM
    have hc0mem : c0 ∈ rowOf D i := by rw [hct]; exact List.mem_cons_self c0 t
    have hallmax : ∀ c ∈ rowOf D i, c.2 = maxDistance := by
      rcases ctx.uniform i hiM with hallmax | hinit
      · exact hallmax
      · exact absurd hinit hninit
    have hc0 : ¬ c0.2 ≠ maxDistance := fun h => h (hallmax c0 hc0mem)
    simp only [initMatchState, hhead i c0 t hct, if_neg hc0]

/-- Row i of the sorted distance matrix is the insertion sort of the row
built from slot i's last position. -/
lemma rowOf_build {lastStraysPos straysPos : List Pos3} {maxDistance : ℚ} {i : ℕ}
    (hi : i < lastStraysPos.length) :
    rowOf (SortDistanceStrays (GetDistanceStrays lastStraysPos maxDistance straysPos)) i =
      List.insertionSort (fun a b => a.2 < b.2)
        ((List.range straysPos.length).map fun j =>
          (Int.ofNat j,
            if (lastStraysPos.getD i default).1 ≠ 0 ∨
                (lastStraysPos.getD i default).2.1 ≠ 0 ∨
                (lastStraysPos.getD i default).2.2 ≠ 0 then
              sqDist (lastStraysPos.getD i default) (straysPos.getD j default)
            else maxDistance)) := by
  have h1 : i < (GetDistanceStrays lastStraysPos maxDistance straysPos).length := by
    simp [GetDistanceStrays, hi]
  have h2 : i < (SortDistanceStrays
      (GetDistanceStrays lastStraysPos maxDistance straysPos)).length := by
    simp [SortDistanceStrays, GetDistanceStrays, hi]
  unfold rowOf
  rw [List.getD_eq_getElem _ _ h2]
  unfold SortDistanceStrays
  rw [List.getElem_map]
  unfold GetDistanceStrays
  rw [List.getElem_map]
  rw [List.getD_eq_getElem _ _ hi]

/-- The built (unsorted) row of a nonzero position has no sentinel entries. -/
lemma rowOf_initialized_of_nonzero {lastStraysPos straysPos : List Pos3}
    {maxDistance : ℚ} {i : ℕ} (hi : i < lastStraysPos.length)
    (hmax : ∀ p ∈ lastStraysPos, ∀ c ∈ straysPos, sqDist p c ≠ maxDistance)
    (hnz : lastStraysPos.getD i default ≠ ((0 : ℚ), (0 : ℚ), (0 : ℚ))) :
    InitializedRow maxDistance
      (rowOf (SortDistanceStrays (GetDistanceStrays lastStraysPos maxDistance straysPos))
        i) := by
  intro c hc
  rw [rowOf_build hi] at hc
  have hc2 := (List.perm_insertionSort (fun a b : ℤ × ℚ => a.2 < b.2) _).mem_iff.mp hc
  obtain ⟨j, hj, hcj⟩ := List.mem_map.mp hc2
  have hjN : j < straysPos.length := List.mem_range.mp hj
  have hpmem : lastStraysPos.getD i default ∈ lastStraysPos := by
    rw [List.getD_eq_getElem _ _ hi]
    exact List.getElem_mem hi
  have hcmem : straysPos.getD j default ∈ straysPos := by
    rw [List.getD_eq_getElem _ _ hjN]
    exact List.getElem_mem hjN
  have hcond : (lastStraysPos.getD i default).1 ≠ 0 ∨
      (lastStraysPos.getD i default).2.1 ≠ 0 ∨
      (lastStraysPos.getD i default).2.2 ≠ 0 := by
    by_contra hcon
    push_neg at hcon
    apply hnz
    obtain ⟨ha, hb, hcc⟩ := hcon
    exact Prod.ext_iff.mpr ⟨ha, Prod.ext_iff.mpr ⟨hb, hcc⟩⟩
  rw [← hcj]
  simp only [if_pos hcond]
  exact hmax _ hpmem _ hcmem

/-- Well-formedness of the matrix built by GetDistanceStrays and sorted by
SortDistanceStrays. -/
lemma rowsOk_of_build {noMatchFlag : ℤ} {maxDistance : ℚ}
    {lastStraysPos straysPos : List Pos3}
    (hN : 0 < straysPos.length)
    (hsent : ∀ o : ℕ, o < straysPos.length → (o : ℤ) ≠ noMatchFlag)
    (hmax : ∀ p ∈ lastStraysPos, ∀ c ∈ straysPos, sqDist p c ≠ maxDistance) :
    RowsOk noMatchFlag maxDistance lastStraysPos.length straysPos.length
      (SortDistanceStrays (GetDistanceStrays lastStraysPos maxDistance straysPos)) := by
  refine ⟨hN, ?_, ?_, ?_, ?_, ?_, hsent⟩
  · -- rowlen
    intro i hi
    rw [rowOf_build hi]
    rw [(List.perm_insertionSort _ _).length_eq]
    simp
  · -- fstMem
    intro i hi c hc
    rw [rowOf_build hi] at hc
    have hc2 := (List.perm_insertionSort (fun a b : ℤ × ℚ => a.2 < b.2) _).mem_iff.mp hc
    obtain ⟨j, hj, hcj⟩ := List.mem_map.mp hc2
    exact ⟨j, List.mem_range.mp hj, by rw [← hcj]; rfl⟩
  · -- fstPairwise
    intro i hi
    rw [rowOf_build hi]
    rw [(List.perm_insertionSort (fun a b : ℤ × ℚ => a.2 < b.2) _).pairwise_iff
      (fun h => h.symm)]
    rw [List.pairwise_map]
    refine (List.pairwise_lt_range straysPos.length).imp ?_
    intro a b hab h
    have hab2 : (a : ℤ) = (b : ℤ) := h
    omega
  · -- fstCover
    intro i hi o ho
    rw [rowOf_build hi]
    refine ⟨(Int.ofNat o,
      if (lastStraysPos.getD i default).1 ≠ 0 ∨ (lastStraysPos.getD i default).2.1 ≠ 0 ∨
          (lastStraysPos.getD i default).2.2 ≠ 0 then
        sqDist (lastStraysPos.getD i default) (straysPos.getD o default)
      else maxDistance), ?_, rfl⟩
    rw [(List.perm_insertionSort (fun a b : ℤ × ℚ => a.2 < b.2) _).mem_iff]
    exact List.mem_map.mpr ⟨o, List.mem_range.mpr ho, rfl⟩
  · -- uniform
    intro i hi
    by_cases hcond : (lastStraysPos.getD i default).1 ≠ 0 ∨
        (lastStraysPos.getD i default).2.1 ≠ 0 ∨ (lastStraysPos.getD i default).2.2 ≠ 0
    · right
      intro c hc
      rw [rowOf_build hi] at hc
      have hc2 := (List.perm_insertionSort (fun a b : ℤ × ℚ => a.2 < b.2) _).mem_iff.mp hc
      obtain ⟨j, hj, hcj⟩ := List.mem_map.mp hc2
      have hjN : j < straysPos.length := List.mem_range.mp hj
      have hpmem : lastStraysPos.getD i default ∈ lastStraysPos := by
        rw [List.getD_eq_getElem _ _ hi]
        exact List.getElem_mem hi
      have hcmem : straysPos.getD j default ∈ straysPos := by
        rw [List.getD_eq_getElem _ _ hjN]
        exact List.getElem_mem hjN
      rw [← hcj]
      simp only [if_pos hcond]
      exact hmax _ hpmem _ hcmem
    · left
      intro c hc
      rw [rowOf_build hi] at hc
      have hc2 := (List.perm_insertionSort (fun a b : ℤ × ℚ => a.2 < b.2) _).mem_iff.mp hc
      obtain ⟨j, _, hcj⟩ := List.mem_map.mp hc2
      rw [← hcj]
      simp only [if_neg hcond]

/-- The MatchStrays result vector reads back the final state of the loop. -/
lemma MatchStrays_getD {noMatchFlag : ℤ} {maxDistance : ℚ} {M : ℕ}
    {D : List (List (ℤ × ℚ))} (fuel : ℕ) {k : ℕ} (hk : k < M) (dflt : ℤ) :
    (MatchStrays M noMatchFlag maxDistance fuel D).getD k dflt =
      (matchLoop noMatchFlag maxDistance M D fuel
        (initMatchState noMatchFlag maxDistance D)).minMatchedIndex k := by
  unfold MatchStrays
  have hk2 : k < ((List.range M).map
      (matchLoop noMatchFlag maxDistance M D fuel
        (initMatchState noMatchFlag maxDistance D)).minMatchedIndex).length := by
    simpa using hk
  rw [List.getD_eq_getElem _ _ hk2, List.getElem_map, List.getElem_range]

/-- When every observation index occurs in the assignment vector, the unused
list is empty. -/
lemma unusedStraysList_eq_nil {N : ℕ} {minMatchedIndex : List ℤ}
    (hall : ∀ o : ℕ, o < N → ∃ v ∈ minMatchedIndex, v = (o : ℤ)) :
    unusedStraysList N minMatchedIndex = [] := by
  unfold unusedStraysList
  rw [List.filter_eq_nil_iff]
  intro o ho
  obtain ⟨v, hv, hvo⟩ := hall o (List.mem_range.mp ho)
  have hany : (minMatchedIndex.any fun v => v == (o : ℤ)) = true :=
    List.any_eq_true.mpr ⟨v, hv, beq_iff_eq.mpr hvo⟩
  simp [hany]

lemma noneRankUpTo_zero (noMatchFlag : ℤ) (ms : List ℤ) :
    noneRankUpTo noMatchFlag ms 0 = 0 := by
  simp [noneRankUpTo]

lemma noneRankUpTo_cons_succ (noMatchFlag : ℤ) (m : ℤ) (ms : List ℤ) (i : ℕ) :
    noneRankUpTo noMatchFlag (m :: ms) (i + 1) =
      if m = noMatchFlag then noneRankUpTo noMatchFlag ms i + 1
      else noneRankUpTo noMatchFlag ms i := by
  by_cases h : m = noMatchFlag
  · simp [noneRankUpTo, h, List.take_succ_cons, List.filter_cons]
  · simp [noneRankUpTo, h, List.take_succ_cons, List.filter_cons]

/-- Per-slot characterization of the UpdateLastStraysData loop: a matched
slot takes its matched observation with TOOL_OK; an unmatched slot whose
rank among unmatched slots falls within the unused queue takes the unused
observation of that rank with TOOL_OK; an unmatched slot beyond the queue
keeps its position and is marked TOOL_MISSING. -/
lemma updateSlots_spec (noMatchFlag : ℤ) (straysPos : List Pos3) :
    ∀ (ms : List ℤ) (slots : List (Pos3 × ToolStatus)) (unused : List ℕ) (i : ℕ),
      i < ms.length → ms.length = slots.length →
      ((ms.getD i 0 ≠ noMatchFlag →
        (updateSlots noMatchFlag straysPos ms slots unused).getD i default =
          (straysPos.getD (ms.getD i 0).toNat default, TOOL_OK)) ∧
       (ms.getD i 0 = noMatchFlag →
        (noneRankUpTo noMatchFlag ms i < unused.length →
          (updateSlots noMatchFlag straysPos ms slots unused).getD i default =
            (straysPos.getD (unused.getD (noneRankUpTo noMatchFlag ms i) 0) default,
              TOOL_OK)) ∧
        (unused.length ≤ noneRankUpTo noMatchFlag ms i →
          (updateSlots noMatchFlag straysPos ms slots unused).getD i default =
            ((slots.getD i default).1, TOOL_MISSING)))) := by
  intro ms
  induction ms with
  | nil =>
    intro slots unused i hi _
    exact absurd hi (by simp)
  | cons m ms2 ih =>
    intro slots unused i hi hlen
    cases slots with
    | nil => simp at hlen
    | cons slot rest =>
      have hlen2 : ms2.length = rest.length := by simpa using hlen
      by_cases hm : m ≠ noMatchFlag
      · have hup : updateSlots noMatchFlag straysPos (m :: ms2) (slot :: rest) unused =
            (straysPos.getD m.toNat default, TOOL_OK) ::
              updateSlots noMatchFlag straysPos ms2 rest unused := by
          conv_lhs => unfold updateSlots
          rw [if_pos hm]
        cases i with
        | zero =>
          refine ⟨fun _ => ?_, fun h0 => absurd (by simpa using h0) hm⟩
          rw [hup]
          simp
        | succ j =>
          have hj : j < ms2.length := by simpa using hi
          have hrank : noneRankUpTo noMatchFlag (m :: ms2) (j + 1) =
              noneRankUpTo noMatchFlag ms2 j := by
            rw [noneRankUpTo_cons_succ, if_neg (by simpa using hm)]
          obtain ⟨ih1, ih2⟩ := ih rest unused j hj hlen2
          constructor
          · intro hne
            rw [List.getD_cons_succ] at hne
            rw [hup, List.getD_cons_succ, List.getD_cons_succ]
            exact ih1 hne
          · intro heq
            rw [List.getD_cons_succ] at heq
            obtain ⟨iha, ihb⟩ := ih2 heq
            constructor
            · intro hlt
              rw [hrank] at hlt
              rw [hup, List.getD_cons_succ, hrank]
              exact iha hlt
            · intro hge
              rw [hrank] at hge
              rw [hup, List.getD_cons_succ, List.getD_cons_succ]
              exact ihb hge
      · have hmeq : m = noMatchFlag := not_not.mp (by simpa using hm)
        cases unused with
        | nil =>
          have hup : updateSlots noMatchFlag straysPos (m :: ms2) (slot :: rest) [] =
              (slot.1, TOOL_MISSING) :: updateSlots noMatchFlag straysPos ms2 rest [] := by
            conv_lhs => unfold updateSlots
            rw [if_neg hm]
          cases i with
          | zero =>
            refine ⟨fun hne => absurd (by simpa using hmeq) hne, fun _ => ⟨?_, fun _ => ?_⟩⟩
            · intro hlt
              rw [noneRankUpTo_zero] at hlt
              simp at hlt
            · rw [hup]
              simp
          | succ j =>
            have hj : j < ms2.length := by simpa using hi
            have hrank : noneRankUpTo noMatchFlag (m :: ms2) (j + 1) =
                noneRankUpTo noMatchFlag ms2 j + 1 := by
              rw [noneRankUpTo_cons_succ, if_pos hmeq]
            obtain ⟨ih1, ih2⟩ := ih rest [] j hj hlen2
            constructor
            · intro hne
              rw [List.getD_cons_succ] at hne
              rw [hup, List.getD_cons_succ, List.getD_cons_succ]
              exact ih1 hne
            · intro heq
              rw [List.getD_cons_succ] at heq
              obtain ⟨_, ihb⟩ := ih2 heq
              refine ⟨fun hlt => ?_, fun _ => ?_⟩
              · simp at hlt
              · rw [hup, List.getD_cons_succ, List.getD_cons_succ]
                exact ihb (Nat.zero_le _)
        | cons u us =>
          have hup : updateSlots noMatchFlag straysPos (m :: ms2) (slot :: rest) (u :: us) =
              (straysPos.getD u default, TOOL_OK) ::
                updateSlots noMatchFlag straysPos ms2 rest us := by
            conv_lhs => unfold updateSlots
            rw [if_neg hm]
          cases i with
          | zero =>
            refine ⟨fun hne => absurd (by simpa using hmeq) hne, fun _ => ⟨fun _ => ?_, ?_⟩⟩
            · rw [hup, noneRankUpTo_zero]
              simp
            · intro hge
              rw [noneRankUpTo_zero] at hge
              simp at hge
          | succ j =>
            have hj : j < ms2.length := by simpa using hi
            have hrank : noneRankUpTo noMatchFlag (m :: ms2) (j + 1) =
                noneRankUpTo noMatchFlag ms2 j + 1 := by
              rw [noneRankUpTo_cons_succ, if_pos hmeq]
            obtain ⟨ih1, ih2⟩ := ih rest us j hj hlen2
            constructor
            · intro hne
              rw [List.getD_cons_succ] at hne
              rw [hup, List.getD_cons_succ, List.getD_cons_succ]
              exact ih1 hne
            · intro heq
              rw [List.getD_cons_succ] at heq
              obtain ⟨iha, ihb⟩ := ih2 heq
              constructor
              · intro hlt
                rw [hrank] at hlt
                rw [hup, List.getD_cons_succ, hrank, List.getD_cons_succ]
                exact iha (by simpa using hlt)
              · intro hge
                rw [hrank] at hge
                rw [hup, List.getD_cons_succ, List.getD_cons_succ]
                exact ihb (by simpa using hge)

lemma getD_map_fst (l : List (Pos3 × ToolStatus)) (i : ℕ) :
    (l.map Prod.fst).getD i default = (l.getD i default).1 :=
  List.getD_map l default Prod.fst

lemma getD_map_snd (l : List (Pos3 × ToolStatus)) (i : ℕ) :
    (l.map Prod.snd).getD i default = (l.getD i default).2 :=
  List.getD_map l default Prod.snd

/-! ## C1: the concrete stray run -/

set_option maxHeartbeats 2000000

/-- C1, confirmed.  Stray matcher concrete run with MaxNumberOfStrays = 3:
previous slot positions (0,0,10), (10,0,10), (0,10,10) and current
observations (0.1,0,10), (0,10.2,10).  One matching pass (distance matrix,
per-slot ascending sort, conflict resolution with the INT_MAX noMatchFlag and
DBL_MAX maxDistance sentinels, slot update) ends with slot 1 assigned
observation 0 with status OK, slot 2 unmatched with status MISSING (its
previous position retained), and slot 3 assigned observation 1 with status
OK.  The first conjunct is the assignment vector produced by MatchStrays; the
second is the rewritten LastStraysPos / LastStraysStatus state. -/
theorem stray_concrete_run :
    MatchStrays 3 (2 ^ 31 - 1) 1000000 10
        (SortDistanceStrays (GetDistanceStrays
          [((0 : ℚ), (0 : ℚ), (10 : ℚ)), (10, 0, 10), (0, 10, 10)] 1000000
          [((1 / 10 : ℚ), (0 : ℚ), (10 : ℚ)), (0, 51 / 5, 10)])) =
      [0, 2 ^ 31 - 1, 1] ∧
    strayMatchingPass (2 ^ 31 - 1) 1000000 10
        [((0 : ℚ), (0 : ℚ), (10 : ℚ)), (10, 0, 10), (0, 10, 10)]
        [TOOL_OK, TOOL_OK, TOOL_OK]
        [((1 / 10 : ℚ), (0 : ℚ), (10 : ℚ)), (0, 51 / 5, 10)] =
      ([((1 / 10 : ℚ), (0 : ℚ), (10 : ℚ)), (10, 0, 10), (0, 51 / 5, 10)],
        [TOOL_OK, TOOL_MISSING, TOOL_OK]) := by
  constructor
  · norm_num [MatchStrays, matchLoop, passSlots, scanSlot, scanSlotAux, betterMatchCheck,
      setSlot, initMatchState, SortDistanceStrays, GetDistanceStrays, sqDist,
      List.insertionSort, List.orderedInsert, List.enum, List.enumFrom,
      List.range_succ, Function.update]
  · norm_num [strayMatchingPass, strayMatcherOutput, MatchStrays, matchLoop, passSlots,
      scanSlot, scanSlotAux,
      betterMatchCheck, setSlot, initMatchState, SortDistanceStrays, GetDistanceStrays,
      sqDist, UpdateLastStraysData, unusedStraysList, updateSlots,
      List.insertionSort, List.orderedInsert, List.enum, List.enumFrom,
      List.range_succ, Function.update]

/-! ## C2: the slot-update behavior of a full matching pass -/

/-- C2, confirmed.  After conflict resolution in a stray-matching pass, any
still-unused current observations are assigned only to the first empty slots
(slots never yet observed, i.e. zero position) in order and those slots are
marked OK, while every slot whose matching ended NONE and received no unused
observation is marked MISSING and retains its last-known (stale) position
unchanged.  Formally, for every slot i that ended at the noMatchFlag
sentinel: if i's rank among the unmatched slots falls inside the unused
list, then slot i's previous position was the zero vector (it had never been
observed: this uses the loop invariant that an observed slot can only end
unmatched when every observation is claimed by some other slot), and the
pass rewrites it to the unused observation of that rank with status OK;
otherwise the pass leaves its position unchanged and marks it MISSING.  The
hypotheses state that the current-observation list is nonempty (InternalUpdate
only runs the pass then), that no observation index collides with the
noMatchFlag sentinel (INT_MAX in the source), and that no true distance
equals the maxDistance sentinel (DBL_MAX in the source). -/
theorem stray_pass_unused_only_to_empty_slots (noMatchFlag : ℤ) (maxDistance : ℚ)
    (fuel : ℕ) (lastStraysPos : List Pos3) (lastStraysStatus : List ToolStatus)
    (straysPos : List Pos3)
    (hN : 0 < straysPos.length)
    (hlen : lastStraysStatus.length = lastStraysPos.length)
    (hsent : ∀ o : ℕ, o < straysPos.length → (o : ℤ) ≠ noMatchFlag)
    (hmax : ∀ p ∈ lastStraysPos, ∀ c ∈ straysPos, sqDist p c ≠ maxDistance) :
    ∀ i, i < lastStraysPos.length →
      (strayMatcherOutput noMatchFlag maxDistance fuel lastStraysPos straysPos).getD i 0 =
        noMatchFlag →
      ((noneRankUpTo noMatchFlag
          (strayMatcherOutput noMatchFlag maxDistance fuel lastStraysPos straysPos) i <
          (unusedStraysList straysPos.length
            (strayMatcherOutput noMatchFlag maxDistance fuel lastStraysPos
              straysPos)).length →
        lastStraysPos.getD i default = ((0 : ℚ), (0 : ℚ), (0 : ℚ)) ∧
        (strayMatchingPass noMatchFlag maxDistance fuel lastStraysPos lastStraysStatus
          straysPos).2.getD i default = TOOL_OK ∧
        (strayMatchingPass noMatchFlag maxDistance fuel lastStraysPos lastStraysStatus
          straysPos).1.getD i default =
          straysPos.getD
            ((unusedStraysList straysPos.length
              (strayMatcherOutput noMatchFlag maxDistance fuel lastStraysPos
                straysPos)).getD
              (noneRankUpTo noMatchFlag
                (strayMatcherOutput noMatchFlag maxDistance fuel lastStraysPos straysPos)
                i) 0) default) ∧
       ((unusedStraysList straysPos.length
          (strayMatcherOutput noMatchFlag maxDistance fuel lastStraysPos
            straysPos)).length ≤
          noneRankUpTo noMatchFlag
            (strayMatcherOutput noMatchFlag maxDistance fuel lastStraysPos straysPos) i →
        (strayMatchingPass noMatchFlag maxDistance fuel lastStraysPos lastStraysStatus
          straysPos).2.getD i default = TOOL_MISSING ∧
        (strayMatchingPass noMatchFlag maxDistance fuel lastStraysPos lastStraysStatus
          straysPos).1.getD i default = lastStraysPos.getD i default)) := by
  intro i hi hnone
  have ctx := rowsOk_of_build hN hsent hmax
  have hInv := matchLoop_inv ctx fuel _ (initMatchState_inv ctx)
  have hgetD : (strayMatcherOutput noMatchFlag maxDistance fuel lastStraysPos
      straysPos).getD i 0 =
      (matchLoop noMatchFlag maxDistance lastStraysPos.length
        (SortDistanceStrays (GetDistanceStrays lastStraysPos maxDistance straysPos)) fuel
        (initMatchState noMatchFlag maxDistance
          (SortDistanceStrays
            (GetDistanceStrays lastStraysPos maxDistance straysPos)))).minMatchedIndex
        i :=
    MatchStrays_getD fuel hi 0
  have hmmilen : (strayMatcherOutput noMatchFlag maxDistance fuel lastStraysPos
      straysPos).length = lastStraysPos.length := by
    simp [strayMatcherOutput, MatchStrays]
  have hziplen : (strayMatcherOutput noMatchFlag maxDistance fuel lastStraysPos
      straysPos).length = (lastStraysPos.zip lastStraysStatus).length := by
    rw [hmmilen, List.length_zip, hlen, Nat.min_self]
  have hkey : lastStraysPos.getD i default ≠ ((0 : ℚ), (0 : ℚ), (0 : ℚ)) →
      unusedStraysList straysPos.length
        (strayMatcherOutput noMatchFlag maxDistance fuel lastStraysPos straysPos) = [] := by
    intro hnz
    have hinit := rowOf_initialized_of_nonzero hi hmax hnz
    have hblocked := hInv.claimNone i hi hinit (hgetD ▸ hnone)
    apply unusedStraysList_eq_nil
    intro o ho
    obtain ⟨c, hc, hco⟩ := ctx.fstCover i hi o ho
    obtain ⟨k, hkM, _, hmk, _⟩ := hblocked c hc
    refine ⟨(matchLoop noMatchFlag maxDistance lastStraysPos.length
      (SortDistanceStrays (GetDistanceStrays lastStraysPos maxDistance straysPos)) fuel
      (initMatchState noMatchFlag maxDistance
        (SortDistanceStrays
          (GetDistanceStrays lastStraysPos maxDistance straysPos)))).minMatchedIndex k,
      ?_, by rw [← hmk, hco]⟩
    unfold strayMatcherOutput MatchStrays
    exact List.mem_map.mpr ⟨k, List.mem_range.mpr hkM, rfl⟩
  have hspec := updateSlots_spec noMatchFlag straysPos
    (strayMatcherOutput noMatchFlag maxDistance fuel lastStraysPos straysPos)
    (lastStraysPos.zip lastStraysStatus)
    (unusedStraysList straysPos.length
      (strayMatcherOutput noMatchFlag maxDistance fuel lastStraysPos straysPos))
    i (by rw [hmmilen]; exact hi) hziplen
  obtain ⟨iha, ihb⟩ := hspec.2 hnone
  have hfst : (strayMatchingPass noMatchFlag maxDistance fuel lastStraysPos
      lastStraysStatus straysPos).1 =
      (updateSlots noMatchFlag straysPos
        (strayMatcherOutput noMatchFlag maxDistance fuel lastStraysPos straysPos)
        (lastStraysPos.zip lastStraysStatus)
        (unusedStraysList straysPos.length
          (strayMatcherOutput noMatchFlag maxDistance fuel lastStraysPos
            straysPos))).map Prod.fst := rfl
  have hsnd : (strayMatchingPass noMatchFlag maxDistance fuel lastStraysPos
      lastStraysStatus straysPos).2 =
      (updateSlots noMatchFlag straysPos
        (strayMatcherOutput noMatchFlag maxDistance fuel lastStraysPos straysPos)
        (lastStraysPos.zip lastStraysStatus)
        (unusedStraysList straysPos.length
          (strayMatcherOutput noMatchFlag maxDistance fuel lastStraysPos
            straysPos))).map Prod.snd := rfl
  have hzipfst : ((lastStraysPos.zip lastStraysStatus).getD i default).1 =
      lastStraysPos.getD i default := by
    have hizip : i < (lastStraysPos.zip lastStraysStatus).length := by
      rw [List.length_zip, hlen, Nat.min_self]
      exact hi
    rw [List.getD_eq_getElem _ _ hizip, List.getElem_zip, List.getD_eq_getElem _ _ hi]
  constructor
  · intro hlt
    have hzero : lastStraysPos.getD i default = ((0 : ℚ), (0 : ℚ), (0 : ℚ)) := by
      by_contra hnz
      rw [hkey hnz] at hlt
      simp at hlt
    have hupd := iha hlt
    refine ⟨hzero, ?_, ?_⟩
    · rw [hsnd, getD_map_snd, hupd]
    · rw [hfst, getD_map_fst, hupd]
  · intro hge
    have hupd := ihb hge
    refine ⟨?_, ?_⟩
    · rw [hsnd, getD_map_snd, hupd]
    · rw [hfst, getD_map_fst, hupd]
      exact hzipfst

/-- C2, witness: MaxNumberOfStrays = 1 with a never-observed slot (zero
position) and one observation at (2,0,0), noMatchFlag 100, maxDistance 1000,
fuel 1: the slot ends unmatched, the observation is unused, and the pass
assigns it to the empty slot with status OK. -/
theorem stray_pass_unused_witness :
    (0 < ([((2 : ℚ), (0 : ℚ), (0 : ℚ))] : List Pos3).length) ∧
    (([TOOL_OK] : List ToolStatus).length =
      ([((0 : ℚ), (0 : ℚ), (0 : ℚ))] : List Pos3).length) ∧
    (∀ o : ℕ, o < ([((2 : ℚ), (0 : ℚ), (0 : ℚ))] : List Pos3).length → (o : ℤ) ≠ 100) ∧
    (∀ p ∈ ([((0 : ℚ), (0 : ℚ), (0 : ℚ))] : List Pos3),
      ∀ c ∈ ([((2 : ℚ), (0 : ℚ), (0 : ℚ))] : List Pos3), sqDist p c ≠ 1000) ∧
    (([((0 : ℚ), (0 : ℚ), (0 : ℚ))] : List Pos3).getD 0 default =
        ((0 : ℚ), (0 : ℚ), (0 : ℚ)) ∧
      (strayMatchingPass 100 1000 1 [((0 : ℚ), (0 : ℚ), (0 : ℚ))] [TOOL_OK]
        [((2 : ℚ), (0 : ℚ), (0 : ℚ))]).2.getD 0 default = TOOL_OK ∧
      (strayMatchingPass 100 1000 1 [((0 : ℚ), (0 : ℚ), (0 : ℚ))] [TOOL_OK]
        [((2 : ℚ), (0 : ℚ), (0 : ℚ))]).1.getD 0 default =
        ([((2 : ℚ), (0 : ℚ), (0 : ℚ))] : List Pos3).getD
          ((unusedStraysList ([((2 : ℚ), (0 : ℚ), (0 : ℚ))] : List Pos3).length
            (strayMatcherOutput 100 1000 1 [((0 : ℚ), (0 : ℚ), (0 : ℚ))]
              [((2 : ℚ), (0 : ℚ), (0 : ℚ))])).getD
            (noneRankUpTo 100
              (strayMatcherOutput 100 1000 1 [((0 : ℚ), (0 : ℚ), (0 : ℚ))]
                [((2 : ℚ), (0 : ℚ), (0 : ℚ))]) 0) 0) default) := by
  have p1 : 0 < ([((2 : ℚ), (0 : ℚ), (0 : ℚ))] : List Pos3).length := by norm_num
  have p2 : ([TOOL_OK] : List ToolStatus).length =
      ([((0 : ℚ), (0 : ℚ), (0 : ℚ))] : List Pos3).length := by norm_num
  have p3 : ∀ o : ℕ, o < ([((2 : ℚ), (0 : ℚ), (0 : ℚ))] : List Pos3).length →
      (o : ℤ) ≠ 100 := by
    intro o ho
    simp only [List.length_singleton] at ho
    omega
  have p4 : ∀ p ∈ ([((0 : ℚ), (0 : ℚ), (0 : ℚ))] : List Pos3),
      ∀ c ∈ ([((2 : ℚ), (0 : ℚ), (0 : ℚ))] : List Pos3), sqDist p c ≠ 1000 := by
    intro p hp c hc
    rw [List.mem_singleton.mp hp, List.mem_singleton.mp hc]
    norm_num [sqDist]
  have hnone : (strayMatcherOutput 100 1000 1 [((0 : ℚ), (0 : ℚ), (0 : ℚ))]
      [((2 : ℚ), (0 : ℚ), (0 : ℚ))]).getD 0 0 = 100 := by
    norm_num [strayMatcherOutput, MatchStrays, matchLoop, passSlots, scanSlot, scanSlotAux,
      betterMatchCheck, setSlot, initMatchState, SortDistanceStrays, GetDistanceStrays,
      sqDist, List.insertionSort, List.orderedInsert, List.range_succ, Function.update]
  have hrank : noneRankUpTo 100
      (strayMatcherOutput 100 1000 1 [((0 : ℚ), (0 : ℚ), (0 : ℚ))]
        [((2 : ℚ), (0 : ℚ), (0 : ℚ))]) 0 <
      (unusedStraysList ([((2 : ℚ), (0 : ℚ), (0 : ℚ))] : List Pos3).length
        (strayMatcherOutput 100 1000 1 [((0 : ℚ), (0 : ℚ), (0 : ℚ))]
          [((2 : ℚ), (0 : ℚ), (0 : ℚ))])).length := by
    norm_num [strayMatcherOutput, MatchStrays, matchLoop, passSlots, scanSlot, scanSlotAux,
      betterMatchCheck, setSlot, initMatchState, SortDistanceStrays, GetDistanceStrays,
      sqDist, List.insertionSort, List.orderedInsert, List.range_succ, Function.update,
      noneRankUpTo, unusedStraysList]
  exact ⟨p1, p2, p3, p4,
    (stray_pass_unused_only_to_empty_slots 100 1000 1 [((0 : ℚ), (0 : ℚ), (0 : ℚ))]
      [TOOL_OK] [((2 : ℚ), (0 : ℚ), (0 : ℚ))] p1 p2 p3 p4 0 (by norm_num) hnone).1 hrank⟩

end PlusLib
